import Mathlib

/-!
Verification of the workout-planner core (plan generation and history
analysis) against its natural-language specification.

The program text is shallowly embedded:
  * JavaScript numbers are modelled as `ℚ` (exact arithmetic), with
    `Math.floor` as `Int.floor`, `Math.ceil` as `Int.ceil` and
    `Math.round` as `round` (floor of x + 1/2, matching JS semantics).
  * Local timestamps are modelled as integer minutes; one calendar day is
    1440 minutes, and the epoch (day 0) is taken to be a Monday, so the
    weekday index of day `d` is `d % 7` with Monday = 0.
  * The wall clock (`new Date()` in the source) is passed explicitly as a
    `today` parameter.
  * Network fetches of the history analyzer are passed as explicit
    parameters: `Option`-valued results model success/failure of `fetch`.
-/

namespace WorkoutPlanner

/-! ### String utilities

`String` in this Lean version is a structure wrapping `List Char`, which
lets all string reasoning happen on character lists.
-/

/-- Substring occurrence on character lists: `occursIn pat l` holds when
`pat` appears contiguously inside `l`.  This models the JavaScript
`String.prototype.includes` and is also used to state "the description
embeds the token ...". -/
def occursIn (pat l : List Char) : Prop :=
  ∃ pre post, l = pre ++ pat ++ post

/-- Boolean test for `pat` being an initial segment of `l`. -/
def leadsWith : List Char → List Char → Bool
  | [], _ => true
  | _ :: _, [] => false
  | p :: ps, c :: cs => p == c && leadsWith ps cs

/-- Boolean substring search (naive scan), the executable companion of
`occursIn`. -/
def hasSub (pat : List Char) : List Char → Bool
  | [] => leadsWith pat []
  | c :: cs => leadsWith pat (c :: cs) || hasSub pat cs

theorem leadsWith_iff (pat : List Char) :
    ∀ l, leadsWith pat l = true ↔ ∃ post, l = pat ++ post := by
  induction pat with
  | nil => intro l; simp [leadsWith]
  | cons p ps ih =>
    intro l
    cases l with
    | nil => simp [leadsWith]
    | cons c cs =>
      simp only [leadsWith, Bool.and_eq_true, beq_iff_eq, ih cs,
        List.cons_append, List.cons.injEq]
      constructor
      · rintro ⟨rfl, post, rfl⟩; exact ⟨post, rfl, rfl⟩
      · rintro ⟨post, rfl, rfl⟩; exact ⟨rfl, post, rfl⟩

theorem hasSub_iff (pat : List Char) :
    ∀ l, hasSub pat l = true ↔ occursIn pat l := by
  intro l
  induction l with
  | nil =>
    simp only [hasSub, leadsWith_iff, occursIn]
    constructor
    · rintro ⟨post, h⟩; exact ⟨[], post, by simpa using h⟩
    · rintro ⟨pre, post, h⟩
      have h2 : pre ++ pat ++ post = [] := h.symm
      simp only [List.append_eq_nil] at h2
      exact ⟨[], by simp [h2.1.2]⟩
  | cons c cs ih =>
    simp only [hasSub, Bool.or_eq_true, leadsWith_iff, ih, occursIn]
    constructor
    · rintro (⟨post, h⟩ | ⟨pre, post, h⟩)
      · exact ⟨[], post, by simpa using h⟩
      · exact ⟨c :: pre, post, by simp [h]⟩
    · rintro ⟨pre, post, h⟩
      cases pre with
      | nil => exact Or.inl ⟨post, by simpa using h⟩
      | cons x xs =>
        simp only [List.cons_append, List.append_assoc] at h
        injection h with h1 h2
        exact Or.inr ⟨xs, post, by simpa [List.append_assoc] using h2⟩

theorem occursIn_of_middle (pat pre post : List Char) :
    occursIn pat (pre ++ pat ++ post) := ⟨pre, post, rfl⟩

/-- Fold a list of lines into one string separated by newlines; models
`Array.prototype.join("\n")`. -/
def joinNl : List String → String
  | [] => ""
  | [s] => s
  | s :: t :: rest => s ++ "\n" ++ joinNl (t :: rest)

theorem strAppend_assoc (a b c : String) : a ++ b ++ c = a ++ (b ++ c) := by
  apply String.ext
  simp [String.data_append, List.append_assoc]

theorem strAppend_cancel_left {p a b : String} (h : p ++ a = p ++ b) :
    a = b := by
  have h2 := congrArg String.data h
  simp only [String.data_append] at h2
  exact String.ext (List.append_cancel_left h2)

/-! ### Injectivity of the decimal rendering of natural numbers

JavaScript template literals render numbers in decimal; the model uses
`Nat.repr`.  The uniqueness of `external_id`s needs `Nat.repr` to be
injective, which is proved here through an explicit digit-list function.
-/

/-- Decimal digit list of `n`, most significant first. -/
def digitsAux (n : ℕ) : List Char :=
  if h : n < 10 then [Nat.digitChar n]
  else digitsAux (n / 10) ++ [Nat.digitChar (n % 10)]
  decreasing_by exact Nat.div_lt_self (by omega) (by omega)

theorem digitsAux_of_lt {n : ℕ} (h : n < 10) :
    digitsAux n = [Nat.digitChar n] := by
  conv_lhs => rw [digitsAux]
  rw [dif_pos h]

theorem digitsAux_of_ge {n : ℕ} (h : ¬ n < 10) :
    digitsAux n = digitsAux (n / 10) ++ [Nat.digitChar (n % 10)] := by
  conv_lhs => rw [digitsAux]
  rw [dif_neg h]

theorem digitsAux_ne_nil (n : ℕ) : digitsAux n ≠ [] := by
  by_cases h : n < 10
  · rw [digitsAux_of_lt h]; simp
  · rw [digitsAux_of_ge h]; simp

theorem toDigitsCore_eq_digitsAux :
    ∀ (f n : ℕ) (l : List Char), n < f →
      Nat.toDigitsCore 10 f n l = digitsAux n ++ l := by
  intro f
  induction f with
  | zero => intro n l h; omega
  | succ f ih =>
    intro n l h
    rw [Nat.toDigitsCore]
    by_cases h10 : n / 10 = 0
    · have hlt : n < 10 := by omega
      rw [if_pos h10, digitsAux_of_lt hlt, Nat.mod_eq_of_lt hlt]
      rfl
    · have hge : ¬ n < 10 := fun hc => h10 (Nat.div_eq_of_lt hc)
      rw [if_neg h10, ih (n / 10) _ (by
        have := Nat.div_lt_self (by omega : 0 < n) (by omega : 1 < 10)
        omega)]
      rw [digitsAux_of_ge hge]
      simp [List.append_assoc]

theorem digitChar_inj :
    ∀ a < 10, ∀ b < 10, Nat.digitChar a = Nat.digitChar b → a = b := by
  decide

theorem digitsAux_inj : ∀ m n : ℕ, digitsAux m = digitsAux n → m = n := by
  intro m
  induction m using Nat.strong_induction_on with
  | _ m ih =>
    intro n h
    by_cases hm : m < 10 <;> by_cases hn : n < 10
    · rw [digitsAux_of_lt hm, digitsAux_of_lt hn] at h
      exact digitChar_inj m hm n hn (by simpa using h)
    · rw [digitsAux_of_lt hm, digitsAux_of_ge hn] at h
      have hlen := congrArg List.length h
      simp only [List.length_append, List.length_cons, List.length_nil] at hlen
      exact absurd (List.eq_nil_of_length_eq_zero (by omega))
        (digitsAux_ne_nil (n / 10))
    · rw [digitsAux_of_ge hm, digitsAux_of_lt hn] at h
      have hlen := congrArg List.length h
      simp only [List.length_append, List.length_cons, List.length_nil] at hlen
      exact absurd (List.eq_nil_of_length_eq_zero (by omega))
        (digitsAux_ne_nil (m / 10))
    · rw [digitsAux_of_ge hm, digitsAux_of_ge hn] at h
      rcases List.append_inj' h (by simp) with ⟨h1, h2⟩
      have hdiv : m / 10 = n / 10 :=
        ih (m / 10) (Nat.div_lt_self (by omega) (by omega)) _ h1
      have hmod : m % 10 = n % 10 :=
        digitChar_inj _ (Nat.mod_lt _ (by omega)) _ (Nat.mod_lt _ (by omega))
          (by simpa using h2)
      omega

theorem natRepr_inj {m n : ℕ} (h : Nat.repr m = Nat.repr n) : m = n := by
  have hm : Nat.repr m = (digitsAux m).asString := by
    show (Nat.toDigitsCore 10 (m + 1) m []).asString = _
    rw [toDigitsCore_eq_digitsAux (m + 1) m [] (by omega)]
    simp
  have hn : Nat.repr n = (digitsAux n).asString := by
    show (Nat.toDigitsCore 10 (n + 1) n []).asString = _
    rw [toDigitsCore_eq_digitsAux (n + 1) n [] (by omega)]
    simp
  rw [hm, hn] at h
  exact digitsAux_inj m n (congrArg String.data h)

/-! ### Date model

`date-fns` operations on local `Date`s, at minute granularity.  A
timestamp is an integer count of minutes; day `d` spans minutes
`d * 1440` to `d * 1440 + 1439`.  Day 0 is taken to be a Monday.
-/

/-- Calendar day of a timestamp (Euclidean division by 1440, which is
floor division since the divisor is positive). -/
def dayOf (t : ℤ) : ℤ := t / 1440

/-- `date-fns` `addDays` (on a midnight timestamp it stays midnight). -/
def addDays (t : ℤ) (n : ℤ) : ℤ := t + n * 1440

/-- `date-fns` `addWeeks`. -/
def addWeeks (t : ℤ) (n : ℤ) : ℤ := t + n * 7 * 1440

/-- `date-fns` `startOfWeek` with `weekStartsOn: 1`: midnight of the
Monday of the timestamp's week. -/
def startOfWeek (t : ℤ) : ℤ := (dayOf t - dayOf t % 7) * 1440

/-- `date-fns` `isBefore`: strict comparison of instants. -/
def isBefore (a b : ℤ) : Prop := a < b

instance (a b : ℤ) : Decidable (isBefore a b) := by
  unfold isBefore; infer_instance

/-- `date-fns` `isSameDay`: same calendar day. -/
def isSameDay (a b : ℤ) : Prop := dayOf a = dayOf b

instance (a b : ℤ) : Decidable (isSameDay a b) := by
  unfold isSameDay; infer_instance

/-- `Date.prototype.setHours(h, 0, 0)` on a midnight-aligned timestamp:
keep the calendar day, set the time of day to `h` hours. -/
def setHours (t : ℤ) (h : ℤ) : ℤ := dayOf t * 1440 + h * 60

theorem dayOf_mul (d : ℤ) : dayOf (d * 1440) = d := by
  unfold dayOf
  omega

theorem dayOf_mul_add (d m : ℤ) (h0 : 0 ≤ m) (h1 : m < 1440) :
    dayOf (d * 1440 + m) = d := by
  unfold dayOf
  omega

theorem addDays_mul (d n : ℤ) : addDays (d * 1440) n = (d + n) * 1440 := by
  unfold addDays; ring

theorem addWeeks_mul (d n : ℤ) : addWeeks (d * 1440) n = (d + 7 * n) * 1440 := by
  unfold addWeeks; ring

theorem setHours_mul (d h : ℤ) : setHours (d * 1440) h = d * 1440 + h * 60 := by
  unfold setHours
  rw [dayOf_mul]

theorem isBefore_mul (a b : ℤ) : isBefore (a * 1440) (b * 1440) ↔ a < b := by
  unfold isBefore
  omega

theorem isSameDay_mul (a b : ℤ) : isSameDay (a * 1440) (b * 1440) ↔ a = b := by
  unfold isSameDay
  rw [dayOf_mul, dayOf_mul]

theorem startOfWeek_mul (d : ℤ) : startOfWeek (d * 1440) = (d - d % 7) * 1440 := by
  unfold startOfWeek
  rw [dayOf_mul]

/-! ### Data model of the plan generator

Source: `src/lib/plannerLogic.ts`, third module variant (lines
1108-1679) — the two-fuel-rate `generatePlan` used by the calendar app.
-/

/-- `WorkoutEvent` (plannerLogic.ts:1126-1132). -/
structure WorkoutEvent where
  start_date_local : ℤ
  name : String
  description : String
  external_id : String
  type : String
  deriving Repr, DecidableEq, Inhabited

/-- One heart-rate zone band as fractions of LTHR. -/
structure ZoneBand where
  min : ℚ
  max : ℚ
  deriving Repr, DecidableEq

/-- The four-band zone table of `PlanContext.zones`. -/
structure Zones where
  easy : ZoneBand
  steady : ZoneBand
  tempo : ZoneBand
  hard : ZoneBand
  deriving Repr, DecidableEq

/-- `PlanContext` (plannerLogic.ts:1148-1164).  `prefix` is a reserved
word in Lean, hence the field name `pfx`. -/
structure PlanContext where
  fuelInterval : ℕ
  fuelSteady : ℕ
  raceDate : ℤ
  raceDist : ℕ
  pfx : String
  totalWeeks : ℕ
  startKm : ℕ
  lthr : ℕ
  planStartMonday : ℤ
  zones : Zones

/-- `formatStep` (plannerLogic.ts:1205-1217). -/
def formatStep (duration : String) (minPct maxPct : ℚ) (lthr : ℕ)
    (note : Option String := none) : String :=
  let minBpm : ℤ := ⌊(lthr : ℚ) * minPct⌋
  let maxBpm : ℤ := ⌈(lthr : ℚ) * maxPct⌉
  let core := duration ++ " " ++ toString ⌊minPct * 100⌋ ++ "-" ++
    toString ⌈maxPct * 100⌉ ++ "% LTHR (" ++ toString minBpm ++ "-" ++
    toString maxBpm ++ " bpm)"
  match note with
  | some n => n ++ " " ++ core
  | none => core

/-- `createWorkoutText` (plannerLogic.ts:1219-1239). -/
def createWorkoutText (title warmup : String) (mainSteps : List String)
    (cooldown : String) (repeats : ℤ := 1) : String :=
  joinNl ([title, "", "Warmup", "- " ++ warmup, "",
    if repeats > 1 then "Main set " ++ toString repeats ++ "x" else "Main set"]
    ++ mainSteps.map (fun s => "- " ++ s)
    ++ ["", "Cooldown", "- " ++ cooldown, ""])

/-- The hard-fuel strategy line of `generateQualityRun`
(plannerLogic.ts:1408). -/
def stratHard (fuelInterval : ℕ) : String :=
  "PUMP OFF - FUEL: " ++ Nat.repr fuelInterval ++ "g/10m"

/-- The easy-fuel strategy line of `generateEasyRun` / `generateBonusRun`
(plannerLogic.ts:1484, 1533). -/
def stratEasy (fuelSteady : ℕ) : String :=
  "PUMP ON (-50%) - FUEL: " ++ Nat.repr fuelSteady ++ "g/10m"

/-- The long-run strategy line of `generateLongRun`
(plannerLogic.ts:1566). -/
def stratLong (fuelSteady : ℕ) : String :=
  "PUMP OFF - FUEL: " ++ Nat.repr fuelSteady ++ "g/10m"

/-- `W${weekNum.toString().padStart(2, "0")}` -/
def padWeek (weekNum : ℕ) : String :=
  if weekNum < 10 then "0" ++ Nat.repr weekNum else Nat.repr weekNum

/-- `generateQualityRun` (plannerLogic.ts:1392-1467).  The Tuesday slot:
alternates tempo (odd week index) and hills (even week index). -/
def generateQualityRun (ctx : PlanContext) (weekIdx : ℕ) (weekStart : ℤ) :
    Option WorkoutEvent :=
  let date := addDays weekStart 1
  if ¬ isBefore date ctx.raceDate ∧ ¬ isSameDay date ctx.raceDate then none
  else if isSameDay date ctx.raceDate then none
  else
  let weekNum := weekIdx + 1
  let progress : ℚ := (weekIdx : ℚ) / (ctx.totalWeeks : ℚ)
  let isRaceWeek := weekNum = ctx.totalWeeks
  let isRaceTest := (weekNum : ℤ) = (ctx.totalWeeks : ℤ) - 2 ∨
    (weekNum : ℤ) = (ctx.totalWeeks : ℤ) - 3
  let strat := stratHard ctx.fuelInterval
  let wu := formatStep "10m" ctx.zones.easy.min ctx.zones.easy.max ctx.lthr
    (some strat)
  let cd := formatStep "5m" ctx.zones.easy.min ctx.zones.easy.max ctx.lthr
  let prefixName := "W" ++ padWeek weekNum ++ " Tue"
  let isTempo := weekIdx % 2 ≠ 0
  if isTempo then
    let isShakeout := isRaceWeek
    let reps : ℤ := if isShakeout then 2 else if isRaceTest then 3
      else 3 + ⌊progress * 3⌋
    let steps := if isShakeout then
        [formatStep "5m" ctx.zones.tempo.min ctx.zones.tempo.max ctx.lthr,
         formatStep "2m" ctx.zones.easy.min ctx.zones.easy.max ctx.lthr]
      else
        [formatStep "8m" ctx.zones.tempo.min ctx.zones.tempo.max ctx.lthr,
         formatStep "2m" ctx.zones.easy.min ctx.zones.easy.max ctx.lthr]
    some {
      start_date_local := setHours date 12
      name := prefixName ++ " Tempo " ++ ctx.pfx ++
        (if isShakeout then " [SHAKEOUT]" else "")
      description := createWorkoutText strat wu steps cd reps
      external_id := ctx.pfx ++ "-tue-" ++ Nat.repr weekNum
      type := "Run" }
  else
    let isShakeout := isRaceWeek
    let reps : ℤ := if isShakeout then 2 else if isRaceTest then 4 else 6
    let steps :=
      [formatStep "2m" ctx.zones.hard.min ctx.zones.hard.max ctx.lthr
        (some "Uphill"),
       formatStep "2m" ctx.zones.easy.min ctx.zones.easy.max ctx.lthr
        (some "Downhill")]
    some {
      start_date_local := setHours date 12
      name := prefixName ++ " Hills " ++ ctx.pfx ++
        (if isShakeout then " [SHAKEOUT]" else "")
      description := createWorkoutText strat wu steps cd reps
      external_id := ctx.pfx ++ "-tue-" ++ Nat.repr weekNum
      type := "Run" }

/-- `generateEasyRun` (plannerLogic.ts:1469-1520).  The Thursday slot. -/
def generateEasyRun (ctx : PlanContext) (weekIdx : ℕ) (weekStart : ℤ) :
    Option WorkoutEvent :=
  let date := addDays weekStart 3
  if ¬ isBefore date ctx.raceDate ∧ ¬ isSameDay date ctx.raceDate then none
  else if isSameDay date ctx.raceDate then none
  else
  let weekNum := weekIdx + 1
  let progress : ℚ := (weekIdx : ℚ) / (ctx.totalWeeks : ℚ)
  let isRaceWeek := weekNum = ctx.totalWeeks
  let isRaceTest := (weekNum : ℤ) = (ctx.totalWeeks : ℤ) - 2 ∨
    (weekNum : ℤ) = (ctx.totalWeeks : ℤ) - 3
  let strat := stratEasy ctx.fuelSteady
  let wu := formatStep "10m" ctx.zones.easy.min ctx.zones.easy.max ctx.lthr
    (some strat)
  let cd := formatStep "5m" ctx.zones.easy.min ctx.zones.easy.max ctx.lthr
  let duration : ℤ := if isRaceWeek then 20 else if isRaceTest then 30
    else 40 + ⌊progress * 20⌋
  some {
    start_date_local := setHours date 12
    name := "W" ++ padWeek weekNum ++ " Thu Easy " ++ ctx.pfx ++
      (if isRaceWeek then " [SHAKEOUT]" else "")
    description := createWorkoutText strat wu
      [formatStep (toString duration ++ "m") ctx.zones.easy.min
        ctx.zones.easy.max ctx.lthr] cd
    external_id := ctx.pfx ++ "-thu-" ++ Nat.repr weekNum
    type := "Run" }

/-- `generateBonusRun` (plannerLogic.ts:1522-1557).  The Saturday slot. -/
def generateBonusRun (ctx : PlanContext) (weekIdx : ℕ) (weekStart : ℤ) :
    Option WorkoutEvent :=
  let date := addDays weekStart 5
  if ¬ isBefore date ctx.raceDate ∧ ¬ isSameDay date ctx.raceDate then none
  else if isSameDay date ctx.raceDate then none
  else
  let weekNum := weekIdx + 1
  let strat := stratEasy ctx.fuelSteady
  let wu := formatStep "10m" ctx.zones.easy.min ctx.zones.easy.max ctx.lthr
    (some strat)
  let cd := formatStep "5m" ctx.zones.easy.min ctx.zones.easy.max ctx.lthr
  some {
    start_date_local := setHours date 12
    name := "W" ++ padWeek weekNum ++ " Sat Bonus (Optional) " ++ ctx.pfx
    description := createWorkoutText strat wu
      [formatStep "30m" ctx.zones.easy.min ctx.zones.easy.max ctx.lthr] cd
    external_id := ctx.pfx ++ "-sat-" ++ Nat.repr weekNum
    type := "Run" }

/-- The long-run distance of `generateLongRun` (plannerLogic.ts:1582-1602):
the interpolated value followed by the three sequential overrides
(recovery, taper, race-test), a later override winning. -/
def longRunKm (ctx : PlanContext) (weekIdx : ℕ) : ℤ :=
  let weekNum := weekIdx + 1
  let isTaper := (weekNum : ℤ) = (ctx.totalWeeks : ℤ) - 1
  let isRaceTest := (weekNum : ℤ) = (ctx.totalWeeks : ℤ) - 2 ∨
    (weekNum : ℤ) = (ctx.totalWeeks : ℤ) - 3
  let isRecoveryWeek := weekNum % 4 = 0
  let km0 : ℤ := min
    (⌊(ctx.startKm : ℚ) +
      ((ctx.raceDist : ℚ) - (ctx.startKm : ℚ)) /
        ((max ((ctx.totalWeeks : ℤ) - 4) 1 : ℤ) : ℚ) * (weekIdx : ℚ)⌋)
    (ctx.raceDist : ℤ)
  let km1 : ℤ := if isRecoveryWeek then (ctx.startKm : ℤ) else km0
  let km2 : ℤ := if isTaper then ⌊(ctx.raceDist : ℚ) * (1/2 : ℚ)⌋ else km1
  if isRaceTest then (ctx.raceDist : ℤ) else km2

/-- The tag appended to the long-run name (plannerLogic.ts:1590-1602). -/
def longRunTag (ctx : PlanContext) (weekIdx : ℕ) : String :=
  let weekNum := weekIdx + 1
  let isTaper := (weekNum : ℤ) = (ctx.totalWeeks : ℤ) - 1
  let isRaceTest := (weekNum : ℤ) = (ctx.totalWeeks : ℤ) - 2 ∨
    (weekNum : ℤ) = (ctx.totalWeeks : ℤ) - 3
  let isRecoveryWeek := weekNum % 4 = 0
  let t1 := if isRecoveryWeek then " [RECOVERY]" else ""
  let t2 := if isTaper then " [TAPER]" else t1
  if isRaceTest then " [RACE TEST]" else t2

/-- The race-day event returned by the race-week branch of
`generateLongRun` (plannerLogic.ts:1567-1575).  In the source
`ctx.raceDate.setHours(10, 0, 0)` mutates `ctx.raceDate`, but the
race-week branch is the last generator call that reads `ctx.raceDate`
within a `generatePlan` run, so the pure model is observationally
equivalent. -/
def raceDayEvent (fuelSteady : ℕ) (raceDate : ℤ) (raceDist : ℕ)
    (pfx : String) : WorkoutEvent :=
  { start_date_local := setHours raceDate 10
    name := "RACE DAY " ++ pfx
    description := "RACE DAY! " ++ Nat.repr raceDist ++ "km. " ++
      stratLong fuelSteady ++ "\n\nGood luck!"
    external_id := pfx ++ "-race"
    type := "Run" }

/-- `generateLongRun` (plannerLogic.ts:1559-1633).  The Sunday slot, or
the race-day event on the race week. -/
def generateLongRun (ctx : PlanContext) (weekIdx : ℕ) (weekStart : ℤ) :
    Option WorkoutEvent :=
  let weekNum := weekIdx + 1
  let isRaceWeek := weekNum = ctx.totalWeeks
  let strat := stratLong ctx.fuelSteady
  if isRaceWeek then
    some (raceDayEvent ctx.fuelSteady ctx.raceDate ctx.raceDist ctx.pfx)
  else
  let date := addDays weekStart 6
  if ¬ isBefore date ctx.raceDate then none
  else
  let km := longRunKm ctx weekIdx
  let tag := longRunTag ctx weekIdx
  let wu := formatStep "10m" ctx.zones.easy.min ctx.zones.easy.max ctx.lthr
    (some strat)
  let cd := formatStep "5m" ctx.zones.easy.min ctx.zones.easy.max ctx.lthr
  some {
    start_date_local := setHours date 10
    name := "W" ++ padWeek weekNum ++ " Sun LR (" ++ toString km ++ "km)" ++
      tag ++ " " ++ ctx.pfx
    description := createWorkoutText (strat ++ " (Trail)") wu
      [formatStep (toString km ++ "km") ctx.zones.steady.min
        ctx.zones.steady.max ctx.lthr] cd
    external_id := ctx.pfx ++ "-sun-" ++ Nat.repr weekNum
    type := "Run" }

/-- `generatePlan` (plannerLogic.ts:1636-1679).  `raceDay` is the
calendar day the race-date string parses to (`parseISO` gives local
midnight of that day); `today` is the wall clock injected explicitly. -/
def generatePlan (fuelInterval fuelSteady : ℕ) (raceDay : ℤ)
    (raceDist : ℕ) (pfx : String) (totalWeeks : ℕ) (startKm : ℕ)
    (lthr : ℕ) (today : ℤ) : List WorkoutEvent :=
  let raceDate : ℤ := raceDay * 1440
  let ctx : PlanContext := {
    fuelInterval := fuelInterval
    fuelSteady := fuelSteady
    raceDate := raceDate
    raceDist := raceDist
    pfx := pfx
    totalWeeks := totalWeeks
    startKm := startKm
    lthr := lthr
    planStartMonday := addWeeks (startOfWeek raceDate)
      (-(totalWeeks - 1 : ℤ))
    zones := {
      easy := { min := 72/100, max := 80/100 }
      steady := { min := 77/100, max := 84/100 }
      tempo := { min := 88/100, max := 94/100 }
      hard := { min := 95/100, max := 1 } } }
  (List.range totalWeeks).flatMap (fun i =>
    let weekStart := addWeeks ctx.planStartMonday i
    if isBefore (addDays weekStart 7) today then []
    else
      [generateQualityRun ctx i weekStart,
       generateEasyRun ctx i weekStart,
       generateBonusRun ctx i weekStart,
       generateLongRun ctx i weekStart].filterMap id)

/-- The `PlanContext` record `generatePlan` builds from its arguments
(plannerLogic.ts:1640-1657), named for reuse in proofs. -/
def planCtx (fuelInterval fuelSteady : ℕ) (raceDay : ℤ) (raceDist : ℕ)
    (pfx : String) (totalWeeks startKm lthr : ℕ) : PlanContext :=
  { fuelInterval := fuelInterval
    fuelSteady := fuelSteady
    raceDate := raceDay * 1440
    raceDist := raceDist
    pfx := pfx
    totalWeeks := totalWeeks
    startKm := startKm
    lthr := lthr
    planStartMonday := addWeeks (startOfWeek (raceDay * 1440))
      (-(totalWeeks - 1 : ℤ))
    zones := {
      easy := { min := 72/100, max := 80/100 }
      steady := { min := 77/100, max := 84/100 }
      tempo := { min := 88/100, max := 94/100 }
      hard := { min := 95/100, max := 1 } } }

/-- The body of `generatePlan`'s week loop (plannerLogic.ts:1660-1676),
named for reuse in proofs. -/
def weekEvents (ctx : PlanContext) (today : ℤ) (i : ℕ) : List WorkoutEvent :=
  let weekStart := addWeeks ctx.planStartMonday i
  if isBefore (addDays weekStart 7) today then []
  else
    [generateQualityRun ctx i weekStart,
     generateEasyRun ctx i weekStart,
     generateBonusRun ctx i weekStart,
     generateLongRun ctx i weekStart].filterMap id

/-- The four candidate external ids of week index `i` (week number
`i + 1`): the Tuesday, Thursday and Saturday slots, and the Sunday slot,
which on the final week is the race id. -/
def slotIds (pfx : String) (totalWeeks : ℕ) (i : ℕ) : List String :=
  [pfx ++ "-tue-" ++ Nat.repr (i + 1),
   pfx ++ "-thu-" ++ Nat.repr (i + 1),
   pfx ++ "-sat-" ++ Nat.repr (i + 1),
   if i + 1 = totalWeeks then pfx ++ "-race"
   else pfx ++ "-sun-" ++ Nat.repr (i + 1)]

/-! ### History analyzer

Source: `src/lib/plannerLogic.ts` (same third module variant), lines
1241-1388 and 1724-1856.  Network fetches are injected as parameters: an
`Option`-valued fetch result models both transport errors and non-OK
responses.
-/

/-- `IntervalsStream` (plannerLogic.ts:1188-1191). -/
structure IntervalsStream where
  type : String
  data : List ℚ
  deriving Repr, DecidableEq

/-- `IntervalsActivity`, the fields the analyzer reads
(plannerLogic.ts:1167-1186); `start_date` is modelled as the parsed
timestamp. -/
structure IntervalsActivity where
  id : String
  start_date : ℤ
  name : String
  description : Option String
  deriving Repr, DecidableEq

/-- One point of the analyzer's plot series: `{ time, glucose: gData[idx] }`
where the positional index may fall beyond the glucose series, in which
case the JavaScript value is `undefined`, modelled as `none`. -/
structure PlotPoint where
  time : ℤ
  glucose : Option ℚ
  deriving Repr, DecidableEq

/-- The record returned by `analyzeRun` (plannerLogic.ts:1286-1293). -/
structure AnalyzeRunResult where
  trend : ℚ
  currentFuel : ℕ
  plotData : List PlotPoint
  deriving Repr, DecidableEq

/-- `AnalysisResult` (plannerLogic.ts:1134-1146). -/
structure AnalysisResult where
  longRun : Option AnalyzeRunResult
  interval : Option AnalyzeRunResult
  msg : Option String
  deriving Repr, DecidableEq

/-- `String.prototype.toLowerCase` (ASCII-adequate model). -/
def strLower (s : String) : String := ⟨s.data.map Char.toLower⟩

/-- The value of a decimal digit string, as `parseInt` computes it on a
match of `\d+`. -/
def digitsToNat (ds : List Char) : ℕ :=
  ds.foldl (fun acc c => acc * 10 + (c.toNat - '0'.toNat)) 0

/-- Whitespace class `\s` of the fuel regex (ASCII-adequate model). -/
def isWs (c : Char) : Bool :=
  c == ' ' || c == '\t' || c == '\n' || c == '\r'

/-- Try to match the regex `FUEL:\s*(\d+)g` (case-insensitively) at the
head of `l`, returning the captured number. -/
def matchFuelAt (l : List Char) : Option ℕ :=
  if (l.take 5).map Char.toLower = "fuel:".data then
    let rest := (l.drop 5).dropWhile isWs
    let ds := rest.takeWhile Char.isDigit
    if ds ≠ [] ∧ (rest.drop ds.length).head?.map Char.toLower = some 'g' then
      some (digitsToNat ds)
    else none
  else none

/-- Scan for the first match of `/FUEL:\s*(\d+)g/i`
(plannerLogic.ts:1310); `\s` and `\d` are disjoint character classes, so
the greedy no-backtracking scan is equivalent to the regex search. -/
def findFuel : List Char → Option ℕ
  | [] => none
  | c :: cs =>
    match matchFuelAt (c :: cs) with
    | some n => some n
    | none => findFuel cs

/-- The fuel rate `analyzeRun` reads back out of an activity description
(plannerLogic.ts:1307-1311), defaulting to 10. -/
def parseFuel (description : Option String) : ℕ :=
  match description with
  | some d => (findFuel d.data).getD 10
  | none => 10

/-- The stream-extraction loop shared by `analyzeRun`
(plannerLogic.ts:1298-1303): the last `"time"` stream and the last
glucose-like stream win. -/
def extractTimeGlucose (streams : List IntervalsStream) :
    List ℚ × List ℚ :=
  streams.foldl (fun acc s =>
    let acc1 := if s.type = "time" then (s.data, acc.2) else acc
    if s.type = "bloodglucose" ∨ s.type = "glucose" ∨ s.type = "ga_smooth"
    then (acc1.1, s.data) else acc1) ([], [])

/-- `analyzeRun` (plannerLogic.ts:1286-1326), with the already-fetched
streams passed in.  Under the `gData.length > 0 && tData.length > 1`
guard the JavaScript first/last indexings `gData[0]`,
`gData[gData.length - 1]` are total; they are modelled with
`headD`/`getLastD`. -/
def analyzeRun (streams : List IntervalsStream)
    (description : Option String) : AnalyzeRunResult :=
  let tg := extractTimeGlucose streams
  let tData := tg.1
  let gData := tg.2
  let currentFuel := parseFuel description
  if 0 < gData.length ∧ 1 < tData.length then
    let plotData := tData.enum.map (fun p =>
      { time := round (p.2 / 60), glucose := gData.get? p.1 })
    let delta := gData.getLastD 0 - gData.headD 0
    let durationHr := (tData.getLastD 0 - tData.headD 0) / 3600
    { trend := if durationHr > 1/5 then delta / durationHr else 0
      currentFuel := currentFuel
      plotData := plotData }
  else
    { trend := 0, currentFuel := currentFuel, plotData := [] }

/-- `fetchStreams` (plannerLogic.ts:1242-1275): a failed or non-OK fetch
degrades to the empty stream list. -/
def fetchStreams (res : Option (List IntervalsStream)) :
    List IntervalsStream := res.getD []

/-- The category of `getWorkoutCategory` (plannerLogic.ts:1278-1284). -/
inductive WorkoutCategory where
  | long
  | interval
  | other
  deriving Repr, DecidableEq

/-- `getWorkoutCategory` (plannerLogic.ts:1278-1284). -/
def getWorkoutCategory (name : String) : WorkoutCategory :=
  let lowerName := strLower name
  if hasSub "lr".data lowerName.data || hasSub "long".data lowerName.data then
    .long
  else if hasSub "tempo".data lowerName.data ||
      hasSub "hills".data lowerName.data then
    .interval
  else .other

/-- Stable insertion of an activity into a list already sorted by
`start_date` descending. -/
def insertByDateDesc (a : IntervalsActivity) :
    List IntervalsActivity → List IntervalsActivity
  | [] => [a]
  | b :: rest =>
    if a.start_date < b.start_date then b :: insertByDateDesc a rest
    else a :: b :: rest

/-- The `relevant.sort((a, b) => bTime - aTime)` step
(plannerLogic.ts:1355-1358): a stable sort by start time descending
(JavaScript `Array.prototype.sort` is stable). -/
def sortByDateDesc (l : List IntervalsActivity) : List IntervalsActivity :=
  l.foldr insertByDateDesc []

/-- `analyzeHistory` (plannerLogic.ts:1328-1388).  `activitiesFetch`
models the top-level activities fetch (`none` covers a network error, a
non-OK response and a JSON parse failure, all of which land in the
`catch`); `streamsFetch` models the per-activity stream fetches consumed
through `fetchStreams`. -/
def analyzeHistory (activitiesFetch : Option (List IntervalsActivity))
    (streamsFetch : String → Option (List IntervalsStream))
    (pfx : String) : AnalysisResult :=
  match activitiesFetch with
  | none => { longRun := none, interval := none, msg := some "Analysis failed" }
  | some activities =>
    let relevant := activities.filter (fun a =>
      hasSub (strLower pfx).data (strLower a.name).data)
    if relevant.length = 0 then
      { longRun := none, interval := none, msg := some "No activities found" }
    else
      let sorted := sortByDateDesc relevant
      let mostRecentLong := sorted.find? (fun a =>
        decide (getWorkoutCategory a.name = .long))
      let mostRecentInterval := sorted.find? (fun a =>
        decide (getWorkoutCategory a.name = .interval))
      { longRun := mostRecentLong.map (fun a =>
          analyzeRun (fetchStreams (streamsFetch a.id)) a.description)
        interval := mostRecentInterval.map (fun a =>
          analyzeRun (fetchStreams (streamsFetch a.id)) a.description)
        msg := none }

/-- `HRZoneData` (plannerLogic.ts:1682-1688). -/
structure HRZoneData where
  z1 : ℕ
  z2 : ℕ
  z3 : ℕ
  z4 : ℕ
  z5 : ℕ
  deriving Repr, DecidableEq

/-- `calculateHRZones` (plannerLogic.ts:1725-1747). -/
def calculateHRZones (hrData : List ℚ) (lthr : ℚ) : HRZoneData :=
  let z1Max := lthr * (80/100)
  let z2Max := lthr * (88/100)
  let z3Max := lthr * (94/100)
  let z4Max := lthr * 1
  hrData.foldl (fun z hr =>
    if hr ≤ z1Max then { z with z1 := z.z1 + 1 }
    else if hr ≤ z2Max then { z with z2 := z.z2 + 1 }
    else if hr ≤ z3Max then { z with z3 := z.z3 + 1 }
    else if hr ≤ z4Max then { z with z4 := z.z4 + 1 }
    else { z with z5 := z.z5 + 1 }) ⟨0, 0, 0, 0, 0⟩

/-- One point of the calendar detail series (plannerLogic.ts:1690-1693);
an index beyond the series gives the JavaScript `undefined / 18.018 = NaN`,
modelled as `none`. -/
structure DataPoint where
  time : ℤ
  value : Option ℚ
  deriving Repr, DecidableEq

/-- `StreamData` (plannerLogic.ts:1695-1702). -/
structure StreamData where
  glucose : Option (List DataPoint) := none
  heartrate : Option (List DataPoint) := none
  pace : Option (List DataPoint) := none
  cadence : Option (List DataPoint) := none
  altitude : Option (List DataPoint) := none
  power : Option (List DataPoint) := none
  deriving Repr, DecidableEq

/-- The record returned by `fetchActivityDetails`
(plannerLogic.ts:1754-1759). -/
structure ActivityDetails where
  hrZones : Option HRZoneData := none
  streamData : Option StreamData := none
  avgHr : Option ℤ := none
  maxHr : Option ℤ := none
  deriving Repr, DecidableEq

/-- The stream-extraction loop of `fetchActivityDetails`
(plannerLogic.ts:1772-1782). -/
def extractDetailStreams (streams : List IntervalsStream) :
    List ℚ × List ℚ × List ℚ × List ℚ × List ℚ × List ℚ × List ℚ :=
  streams.foldl (fun acc s =>
    let (t, hr, g, pa, ca, al, po) := acc
    let t := if s.type = "time" then s.data else t
    let hr := if s.type = "heartrate" then s.data else hr
    let g := if s.type = "bloodglucose" ∨ s.type = "glucose" ∨
      s.type = "ga_smooth" then s.data else g
    let pa := if s.type = "pace" then s.data else pa
    let ca := if s.type = "cadence" then s.data else ca
    let al := if s.type = "altitude" then s.data else al
    let po := if s.type = "watts" ∨ s.type = "power" then s.data else po
    (t, hr, g, pa, ca, al, po)) ([], [], [], [], [], [], [])

/-- `fetchActivityDetails` (plannerLogic.ts:1750-1856), with the fetched
streams passed in (`none` models the `catch` branch, which returns the
empty record). -/
def fetchActivityDetails (streamsRes : Option (List IntervalsStream))
    (lthr : ℚ) : ActivityDetails :=
  match streamsRes with
  | none => {}
  | some streams =>
    let (timeData, hrData, glucoseData, paceData, cadenceData, altitudeData,
      powerData) := extractDetailStreams streams
    let base : ActivityDetails :=
      if 0 < hrData.length then
        { hrZones := some (calculateHRZones hrData lthr)
          avgHr := some (round (hrData.sum / (hrData.length : ℚ)))
          maxHr := some (round (hrData.foldl max (hrData.headD 0))) }
      else {}
    if 0 < timeData.length then
      let mkSeries (src : List ℚ) (f : ℚ → ℚ) : List DataPoint :=
        timeData.enum.map (fun p : ℕ × ℚ =>
          { time := round (p.2 / 60), value := (src.get? p.1).map f })
      let sd : StreamData := {
        glucose := if 0 < glucoseData.length then
          some (mkSeries glucoseData (fun v => v / (18018/1000))) else none
        heartrate := if 0 < hrData.length then
          some (mkSeries hrData id) else none
        pace := if 0 < paceData.length then
          some (mkSeries paceData id) else none
        cadence := if 0 < cadenceData.length then
          some (mkSeries cadenceData (fun v => v * 2)) else none
        altitude := if 0 < altitudeData.length then
          some (mkSeries altitudeData id) else none
        power := if 0 < powerData.length then
          some (mkSeries powerData id) else none }
      { base with streamData :=
          if sd = ({} : StreamData) then none else some sd }
    else base

/-- Scan for the first match of `/(\d+)km/` in a workout name
(plannerLogic.ts:1197); as for the fuel regex, the greedy scan is
equivalent. -/
def findKmNum : List Char → Option ℕ
  | [] => none
  | c :: cs =>
    let ds := (c :: cs).takeWhile Char.isDigit
    if ds ≠ [] ∧ leadsWith "km".data ((c :: cs).drop ds.length) then
      some (digitsToNat ds)
    else findKmNum cs

/-- `getEstimatedDuration` (plannerLogic.ts:1194-1203): 6 min/km for long
runs (name containing "LR" with a `(\d+)km` match), 45 minutes
otherwise.  Used only by the weekly-volume chart. -/
def getEstimatedDuration (event : WorkoutEvent) : ℤ :=
  if hasSub "LR".data event.name.data then
    match findKmNum event.name.data with
    | some n => (n : ℤ) * 6
    | none => 45
  else 45

/-! ### Fuel-suggestion policies of the planner screen

Source: `src/app/screens/PlannerScreen.tsx`, `handleAnalyze`
(lines 55-113) — the three-category variant.  Each category's suggestion
starts from the fuel parsed out of the most recent matching workout and
adjusts it from the trend.
-/

/-- The long-run branch of `handleAnalyze` (PlannerScreen.tsx:70-77). -/
def suggestLongFuel (trend : ℚ) (currentFuel : ℤ) : ℤ :=
  if trend < -3 then
    currentFuel + min (1 + ⌊|trend - (-3)| * (7/10)⌋) 4
  else if trend > 3 then max 0 (currentFuel - 1)
  else currentFuel

/-- The easy-run branch of `handleAnalyze` (PlannerScreen.tsx:87-94). -/
def suggestEasyFuel (trend : ℚ) (currentFuel : ℤ) : ℤ :=
  if trend < -3 then
    currentFuel + min (1 + ⌊|trend - (-3)| * (7/10)⌋) 4
  else if trend > 3 then max 0 (currentFuel - 1)
  else currentFuel

/-- The interval branch of `handleAnalyze` (PlannerScreen.tsx:104-108):
it has no crash branch, only the spike decrease. -/
def suggestIntervalFuel (trend : ℚ) (currentFuel : ℤ) : ℤ :=
  if trend > 3 then max 0 (currentFuel - 1)
  else currentFuel

/-- Modelled from the spec: the single fuel-adjustment policy of §4.3
step 7 that the specification asserts is applied identically to every
category: crash (trend < −3) increases fuel by
`min(1 + floor(|trend − (−3)| · 0.7), 4)`, spike (trend > 3) decreases it
by 1 floored at 0, otherwise no change. -/
def specFuelPolicy (trend : ℚ) (currentFuel : ℤ) : ℤ :=
  if trend < -3 then
    currentFuel + min (1 + ⌊|trend - (-3)| * (7/10)⌋) 4
  else if trend > 3 then max 0 (currentFuel - 1)
  else currentFuel

/-! ### Claim C3 — the fuel-suggestion policy per category -/

/-- Claim C3, counterexample: at trend −5 and current fuel 5 the
long-run (and easy) policy raises the fuel to 7, exactly as the claimed
fixed policy does, but the interval policy leaves it at 5 — the policy is
not identical for every category. -/
theorem c3_policy_not_identical_counterexample :
    suggestLongFuel (-5) 5 = 7 ∧ suggestEasyFuel (-5) 5 = 7 ∧
    specFuelPolicy (-5) 5 = 7 ∧ suggestIntervalFuel (-5) 5 = 5 ∧
    suggestIntervalFuel (-5) 5 ≠ specFuelPolicy (-5) 5 := by
  have h5 : ((-5 : ℚ)) < -3 := by norm_num
  have habs : |(-5 : ℚ) - (-3)| * (7/10) = 7/5 := by norm_num
  have hfl : (⌊(7/5 : ℚ)⌋ : ℤ) = 1 := by norm_num
  refine ⟨?_, ?_, ?_, ?_, ?_⟩ <;>
    simp only [suggestLongFuel, suggestEasyFuel, specFuelPolicy,
      suggestIntervalFuel, if_pos h5, habs, hfl] <;> norm_num

/-- Claim C3 (amended): the long-run and easy categories follow the
spec's fixed crash/spike policy, but the interval category omits the
crash branch — it behaves as the fixed policy applied to the trend
clamped from below at −3, so a crash never increases interval fuel. -/
theorem c3_fuel_policy_per_category (trend : ℚ) (currentFuel : ℤ) :
    suggestLongFuel trend currentFuel = specFuelPolicy trend currentFuel ∧
    suggestEasyFuel trend currentFuel = specFuelPolicy trend currentFuel ∧
    suggestIntervalFuel trend currentFuel =
      specFuelPolicy (max trend (-3)) currentFuel := by
  refine ⟨rfl, rfl, ?_⟩
  unfold suggestIntervalFuel specFuelPolicy
  rcases le_or_lt trend (-3) with h | h
  · rw [max_eq_right h]
    have h1 : ¬ ((-3 : ℚ) < -3) := lt_irrefl _
    have h2 : ¬ ((-3 : ℚ) > 3) := by norm_num
    have h3 : ¬ (trend > 3) := by
      intro hc; exact absurd (lt_of_lt_of_le (by norm_num : (-3:ℚ) < 3)
        (le_of_lt hc)) (not_lt.mpr h)
    rw [if_neg h1, if_neg h2, if_neg h3]
  · rw [max_eq_left (le_of_lt h)]
    rw [if_neg (not_lt.mpr (le_of_lt h))]

/-! ### Claim C4 — the two-point glucose trend -/

/-- Claim C4: with a non-empty extracted glucose series and a time
series of at least two samples, the trend is the two-point slope
`(g_last − g_first) / durationHours` gated at `durationHours > 0.2`
(with `durationHours = (t_last − t_first)/3600`), zero otherwise; and
either stream condition failing also gives zero.  On the synthetic
series falling from 6.0 to 3.0 over one hour the trend is exactly −3,
within the claimed 0.01 tolerance. -/
theorem c4_trend_two_point_slope (streams : List IntervalsStream)
    (desc : Option String) :
    ((extractTimeGlucose streams).2 ≠ [] →
      1 < (extractTimeGlucose streams).1.length →
      (analyzeRun streams desc).trend =
        if 1/5 < ((extractTimeGlucose streams).1.getLastD 0 -
            (extractTimeGlucose streams).1.headD 0) / 3600 then
          ((extractTimeGlucose streams).2.getLastD 0 -
            (extractTimeGlucose streams).2.headD 0) /
          (((extractTimeGlucose streams).1.getLastD 0 -
            (extractTimeGlucose streams).1.headD 0) / 3600)
        else 0) ∧
    ((extractTimeGlucose streams).2 = [] ∨
      (extractTimeGlucose streams).1.length ≤ 1 →
      (analyzeRun streams desc).trend = 0) ∧
    (analyzeRun [⟨"time", [0, 3600]⟩, ⟨"bloodglucose", [6, 3]⟩]
      none).trend = -3 ∧
    |(analyzeRun [⟨"time", [0, 3600]⟩, ⟨"bloodglucose", [6, 3]⟩]
      none).trend - (-3)| ≤ 1/100 := by
  have hex6 : extractTimeGlucose [⟨"time", [0, 3600]⟩,
      ⟨"bloodglucose", [6, 3]⟩] = ([0, 3600], [6, 3]) := by decide
  have hconc : (analyzeRun [⟨"time", [0, 3600]⟩, ⟨"bloodglucose", [6, 3]⟩]
      none).trend = -3 := by
    simp only [analyzeRun, hex6]
    norm_num [List.getLastD, List.headD]
  refine ⟨?_, ?_, hconc, by rw [hconc]; norm_num⟩
  · intro hg ht
    unfold analyzeRun
    rw [if_pos ⟨List.length_pos.mpr hg, ht⟩]
  · intro hfail
    unfold analyzeRun
    rw [if_neg]
    rcases hfail with hg | ht
    · rintro ⟨h1, -⟩
      rw [hg] at h1
      exact absurd h1 (by simp)
    · rintro ⟨-, h2⟩
      omega

/-- Claim C4, witness: the theorem applied to the synthetic one-hour
series. -/
theorem c4_trend_two_point_slope_witness :
    ((extractTimeGlucose [⟨"time", [0, 3600]⟩,
        ⟨"bloodglucose", [6, 3]⟩]).2 ≠ [] ∧
      1 < (extractTimeGlucose [⟨"time", [0, 3600]⟩,
        ⟨"bloodglucose", [6, 3]⟩]).1.length) ∧
    (analyzeRun [⟨"time", [0, 3600]⟩, ⟨"bloodglucose", [6, 3]⟩]
      none).trend =
      if 1/5 < ((extractTimeGlucose [⟨"time", [0, 3600]⟩,
          ⟨"bloodglucose", [6, 3]⟩]).1.getLastD 0 -
          (extractTimeGlucose [⟨"time", [0, 3600]⟩,
          ⟨"bloodglucose", [6, 3]⟩]).1.headD 0) / 3600 then
        ((extractTimeGlucose [⟨"time", [0, 3600]⟩,
          ⟨"bloodglucose", [6, 3]⟩]).2.getLastD 0 -
          (extractTimeGlucose [⟨"time", [0, 3600]⟩,
          ⟨"bloodglucose", [6, 3]⟩]).2.headD 0) /
        (((extractTimeGlucose [⟨"time", [0, 3600]⟩,
          ⟨"bloodglucose", [6, 3]⟩]).1.getLastD 0 -
          (extractTimeGlucose [⟨"time", [0, 3600]⟩,
          ⟨"bloodglucose", [6, 3]⟩]).1.headD 0) / 3600)
      else 0 :=
  ⟨⟨by decide, by decide⟩,
    (c4_trend_two_point_slope [⟨"time", [0, 3600]⟩,
      ⟨"bloodglucose", [6, 3]⟩] none).1 (by decide) (by decide)⟩

/-! ### Claim C10 — positional plotting without length alignment -/

/-- Claim C10: `analyzeRun` never requires the time and glucose streams
to have equal length: whenever the glucose series is non-empty and the
time series has at least two samples it emits one plot point per time
sample, looking the glucose series up positionally, so points at indices
at or beyond the glucose length carry a missing (`none`) value; and the
trend is insensitive to the alignment — it equals the trend of the
canonical two-stream input carrying the same extracted series. -/
theorem c10_positional_plot (streams : List IntervalsStream)
    (desc : Option String) (tData gData : List ℚ)
    (hex : extractTimeGlucose streams = (tData, gData))
    (hg : gData ≠ []) (ht : 1 < tData.length) :
    (analyzeRun streams desc).plotData.length = tData.length ∧
    (∀ i : ℕ, (analyzeRun streams desc).plotData.get? i =
      (tData.get? i).map (fun t =>
        { time := round (t / 60), glucose := gData.get? i })) ∧
    (∀ i : ℕ, gData.length ≤ i → i < tData.length →
      ((analyzeRun streams desc).plotData.get? i).map (·.glucose) =
        some none) ∧
    (analyzeRun streams desc).trend =
      (analyzeRun [⟨"time", tData⟩, ⟨"bloodglucose", gData⟩] desc).trend := by
  have hpos : 0 < gData.length ∧ 1 < tData.length :=
    ⟨List.length_pos.mpr hg, ht⟩
  have hcanon : extractTimeGlucose
      [⟨"time", tData⟩, ⟨"bloodglucose", gData⟩] = (tData, gData) := by
    simp [extractTimeGlucose]
  have hget : ∀ i : ℕ, (analyzeRun streams desc).plotData.get? i =
      (tData.get? i).map (fun t =>
        { time := round (t / 60), glucose := gData.get? i }) := by
    intro i
    unfold analyzeRun
    rw [hex, if_pos hpos]
    rw [List.get?_map, List.get?_enum]
    cases hti : tData.get? i with
    | none => simp
    | some t => simp
  refine ⟨?_, hget, ?_, ?_⟩
  · unfold analyzeRun
    rw [hex, if_pos hpos]
    simp
  · intro i hgi hti
    rw [hget i]
    cases hti2 : tData.get? i with
    | none => exact absurd (List.get?_eq_none.mp hti2) (by omega)
    | some t =>
      exact congrArg some (List.get?_eq_none.mpr hgi)
  · unfold analyzeRun
    rw [hex, hcanon]

/-- Claim C10, witness: three time samples against a single glucose
sample; the second and third plot points carry a missing value. -/
theorem c10_positional_plot_witness :
    (extractTimeGlucose [⟨"time", [0, 60, 120]⟩, ⟨"glucose", [5]⟩] =
      ([0, 60, 120], [5]) ∧ ([5] : List ℚ) ≠ [] ∧
      1 < ([0, 60, 120] : List ℚ).length) ∧
    (analyzeRun [⟨"time", [0, 60, 120]⟩, ⟨"glucose", [5]⟩]
      none).plotData.length = ([0, 60, 120] : List ℚ).length :=
  ⟨⟨by decide, by decide, by decide⟩,
    (c10_positional_plot [⟨"time", [0, 60, 120]⟩, ⟨"glucose", [5]⟩] none
      [0, 60, 120] [5] (by decide) (by decide) (by decide)).1⟩

/-! ### Claim C5 — glucose unit handling -/

theorem activityDetails_streamData (a : Option HRZoneData)
    (x : Option StreamData) (b c : Option ℤ) :
    (ActivityDetails.mk a x b c).streamData = x := rfl

/-- Projection helper: when the built stream-data record has a glucose
series, the `if sd = {}` guard of `fetchActivityDetails` keeps it. -/
theorem streamData_glucose_of (sd : StreamData) (X : List DataPoint)
    (hx : sd.glucose = some X) :
    (if sd = ({} : StreamData) then none else some sd).map
      (fun s => s.glucose) = some (some X) := by
  have hne : sd ≠ ({} : StreamData) := by
    intro hc
    rw [hc] at hx
    exact Option.noConfusion hx
  rw [if_neg hne, Option.map_some', hx]

/-- Claim C5, counterexample: on a series whose values look like mg/dL
(108 and 54, mean 81 > 15), `analyzeRun` computes the trend from the raw
values (−54) and not from values divided by 18.018 (≈ −2.997); and a
series already on the mmol/L scale (6 and 3) is nevertheless divided by
18.018 by `fetchActivityDetails` (6 becomes 1000/3003 ≈ 0.333).  There
is no mean > 15 / max > 20 conditional anywhere. -/
theorem c5_unit_sniffing_counterexample :
    (analyzeRun [⟨"time", [0, 3600]⟩, ⟨"glucose", [108, 54]⟩]
      none).trend = -54 ∧
    (analyzeRun [⟨"time", [0, 3600]⟩, ⟨"glucose", [108, 54]⟩]
      none).trend ≠
      (54 / (18018/1000) - 108 / (18018/1000)) / ((3600 - 0) / 3600) ∧
    (fetchActivityDetails (some [⟨"time", [0, 60]⟩, ⟨"glucose", [6, 3]⟩])
        169).streamData.map (fun sd => sd.glucose) =
      some (some [⟨0, some (1000/3003)⟩, ⟨1, some (500/3003)⟩]) ∧
    ((1000/3003 : ℚ)) ≠ 6 := by
  have hexg : extractTimeGlucose [⟨"time", [0, 3600]⟩,
      ⟨"glucose", [108, 54]⟩] = ([0, 3600], [108, 54]) := by decide
  have htrend : (analyzeRun [⟨"time", [0, 3600]⟩, ⟨"glucose", [108, 54]⟩]
      none).trend = -54 := by
    simp only [analyzeRun, hexg]
    norm_num [List.getLastD, List.headD]
  have hdet : extractDetailStreams [⟨"time", [0, 60]⟩, ⟨"glucose", [6, 3]⟩] =
      ([0, 60], [], [6, 3], [], [], [], []) := rfl
  refine ⟨htrend, by rw [htrend]; norm_num, ?_, by norm_num⟩
  simp only [fetchActivityDetails, hdet]
  rw [if_pos (by decide : 0 < ([0, 60] : List ℚ).length),
    activityDetails_streamData]
  refine streamData_glucose_of _ _ ?_
  rw [if_pos (by decide : 0 < ([6, 3] : List ℚ).length)]
  norm_num [List.enum, List.enumFrom, round_eq]

/-- Claim C5 (amended): the history analysis applies no unit sniffing at
all.  `analyzeRun` uses the glucose values exactly as fetched — every
plot point carries the raw positional value — while
`fetchActivityDetails` divides every glucose sample by 18.018
unconditionally, whatever the magnitude of the values. -/
theorem c5_conversion_unconditional (streams : List IntervalsStream)
    (desc : Option String) (lthr : ℚ) :
    (∀ (i : ℕ) (p : PlotPoint),
      (analyzeRun streams desc).plotData.get? i = some p →
      p.glucose = (extractTimeGlucose streams).2.get? i) ∧
    (∀ t hr g pa ca al po, extractDetailStreams streams =
        (t, hr, g, pa, ca, al, po) → 0 < t.length → 0 < g.length →
      (fetchActivityDetails (some streams) lthr).streamData.map
        (fun sd => sd.glucose) =
      some (some (t.enum.map (fun q : ℕ × ℚ =>
        { time := round (q.2 / 60),
          value := (g.get? q.1).map (fun v => v / (18018/1000)) })))) := by
  constructor
  · intro i p hp
    unfold analyzeRun at hp
    by_cases hcond : 0 < (extractTimeGlucose streams).2.length ∧
        1 < (extractTimeGlucose streams).1.length
    · rw [if_pos hcond] at hp
      simp only [List.get?_map, List.get?_enum] at hp
      cases hti : (extractTimeGlucose streams).1.get? i with
      | none => rw [hti] at hp; simp at hp
      | some t =>
        rw [hti] at hp
        simp only [Option.map_some'] at hp
        cases hp
        rfl
    · rw [if_neg hcond] at hp
      simp at hp
  · intro t hr g pa ca al po hdet ht hg
    simp only [fetchActivityDetails, hdet]
    rw [if_pos ht, activityDetails_streamData]
    refine streamData_glucose_of _ _ ?_
    rw [if_pos hg]

/-- Claim C5, witness for the amended theorem: the two-sample mmol/L
series, where the division by 18.018 is visible (6 ↦ 1000/3003). -/
theorem c5_conversion_unconditional_witness :
    (extractDetailStreams [⟨"time", [0, 60]⟩, ⟨"glucose", [6, 3]⟩] =
      ([0, 60], [], [6, 3], [], [], [], []) ∧
      0 < ([0, 60] : List ℚ).length ∧ 0 < ([6, 3] : List ℚ).length) ∧
    (fetchActivityDetails (some [⟨"time", [0, 60]⟩, ⟨"glucose", [6, 3]⟩])
        169).streamData.map (fun sd => sd.glucose) =
      some (some (([0, 60] : List ℚ).enum.map (fun q : ℕ × ℚ =>
        { time := round (q.2 / 60),
          value := (([6, 3] : List ℚ).get? q.1).map
            (fun v => v / (18018/1000)) }))) :=
  ⟨⟨rfl, by decide, by decide⟩,
    (c5_conversion_unconditional [⟨"time", [0, 60]⟩, ⟨"glucose", [6, 3]⟩]
      none 169).2 [0, 60] [] [6, 3] [] [] [] [] rfl (by decide)
      (by decide)⟩

/-! ### Claim C7 — failure semantics of the history analysis -/

/-- Claim C7, counterexample: when the per-activity stream fetch fails
for an activity whose description carries `FUEL: 12g/10m`, the analysis
degrades to trend 0 and an empty plot but reports fuel 12 — the rate
parsed from the description — and not the default fuel rate of 10 the
claim asserts. -/
theorem c7_degraded_fuel_counterexample :
    analyzeHistory
      (some [⟨"a1", 100, "W03 Sun LR (12km) eco16",
        some "PUMP OFF - FUEL: 12g/10m"⟩])
      (fun _ => none) "eco16" =
      { longRun := some { trend := 0, currentFuel := 12, plotData := [] }
        interval := none, msg := none } ∧
    (12 : ℕ) ≠ 10 := by
  constructor
  · rfl
  · decide

/-- Claim C7 (amended): a failed top-level activity fetch (network
error, non-OK response or parse failure) yields the all-null result
marked "Analysis failed" — the analysis never throws; a failed
per-activity stream fetch degrades to the empty stream list, which
produces trend 0, an empty plot, and the fuel rate parsed from the
activity's description (10 only when absent or unparsable). -/
theorem c7_failure_semantics
    (streamsFetch : String → Option (List IntervalsStream)) (pfx : String) :
    analyzeHistory none streamsFetch pfx =
      { longRun := none, interval := none, msg := some "Analysis failed" } ∧
    (∀ desc : Option String, analyzeRun (fetchStreams none) desc =
      { trend := 0, currentFuel := parseFuel desc, plotData := [] }) := by
  exact ⟨rfl, fun desc => rfl⟩

/-! ### Claims C6 and C9 — the Sunday long-run distance -/

/-- Claim C6: on a non-race week with week number `w = weekIdx + 1`, the
long-run distance is `min(floor(startKm + ((raceDist − startKm) /
max(totalWeeks − 4, 1)) · (w − 1)), raceDist)`, except that a recovery
week (`w % 4 = 0`) is pinned to `startKm` and tagged "[RECOVERY]", the
taper week (`w = totalWeeks − 1`) to `floor(raceDist · 0.5)` tagged
"[TAPER]", and a race-test week (`w = totalWeeks − 2` or
`totalWeeks − 3`) to `raceDist` tagged "[RACE TEST]"; the divisor
`max(totalWeeks − 4, 1)` is positive, so no division by zero occurs for
`totalWeeks < 5`. -/
theorem c6_long_run_distance (ctx : PlanContext) (weekIdx : ℕ) :
    (0 : ℤ) < max ((ctx.totalWeeks : ℤ) - 4) 1 ∧
    (¬ (weekIdx + 1) % 4 = 0 →
      ¬ ((weekIdx + 1 : ℕ) : ℤ) = (ctx.totalWeeks : ℤ) - 1 →
      ¬ (((weekIdx + 1 : ℕ) : ℤ) = (ctx.totalWeeks : ℤ) - 2 ∨
        ((weekIdx + 1 : ℕ) : ℤ) = (ctx.totalWeeks : ℤ) - 3) →
      longRunKm ctx weekIdx = min
        (⌊(ctx.startKm : ℚ) + ((ctx.raceDist : ℚ) - (ctx.startKm : ℚ)) /
          ((max ((ctx.totalWeeks : ℤ) - 4) 1 : ℤ) : ℚ) * (weekIdx : ℚ)⌋)
        (ctx.raceDist : ℤ) ∧
      longRunTag ctx weekIdx = "") ∧
    ((weekIdx + 1) % 4 = 0 →
      ¬ ((weekIdx + 1 : ℕ) : ℤ) = (ctx.totalWeeks : ℤ) - 1 →
      ¬ (((weekIdx + 1 : ℕ) : ℤ) = (ctx.totalWeeks : ℤ) - 2 ∨
        ((weekIdx + 1 : ℕ) : ℤ) = (ctx.totalWeeks : ℤ) - 3) →
      longRunKm ctx weekIdx = (ctx.startKm : ℤ) ∧
      longRunTag ctx weekIdx = " [RECOVERY]") ∧
    (((weekIdx + 1 : ℕ) : ℤ) = (ctx.totalWeeks : ℤ) - 1 →
      ¬ (((weekIdx + 1 : ℕ) : ℤ) = (ctx.totalWeeks : ℤ) - 2 ∨
        ((weekIdx + 1 : ℕ) : ℤ) = (ctx.totalWeeks : ℤ) - 3) →
      longRunKm ctx weekIdx = ⌊(ctx.raceDist : ℚ) * (1/2 : ℚ)⌋ ∧
      longRunTag ctx weekIdx = " [TAPER]") ∧
    (((weekIdx + 1 : ℕ) : ℤ) = (ctx.totalWeeks : ℤ) - 2 ∨
      ((weekIdx + 1 : ℕ) : ℤ) = (ctx.totalWeeks : ℤ) - 3 →
      longRunKm ctx weekIdx = (ctx.raceDist : ℤ) ∧
      longRunTag ctx weekIdx = " [RACE TEST]") := by
  refine ⟨by positivity, ?_, ?_, ?_, ?_⟩
  · intro h1 h2 h3
    constructor
    · simp only [longRunKm]
      rw [if_neg h3, if_neg h2, if_neg h1]
    · simp only [longRunTag]
      rw [if_neg h3, if_neg h2, if_neg h1]
  · intro h1 h2 h3
    constructor
    · simp only [longRunKm]
      rw [if_neg h3, if_neg h2, if_pos h1]
    · simp only [longRunTag]
      rw [if_neg h3, if_neg h2, if_pos h1]
  · intro h2 h3
    constructor
    · simp only [longRunKm]
      rw [if_neg h3, if_pos h2]
    · simp only [longRunTag]
      rw [if_neg h3, if_pos h2]
  · intro h3
    constructor
    · simp only [longRunKm]
      rw [if_pos h3]
    · simp only [longRunTag]
      rw [if_pos h3]

/-- An 18-week example configuration (the spec's end-to-end scenario,
with the race date 2026-06-13 modelled as day 12, a Saturday). -/
def exampleCtx : PlanContext :=
  { fuelInterval := 5
    fuelSteady := 10
    raceDate := 12 * 1440
    raceDist := 16
    pfx := "eco16"
    totalWeeks := 18
    startKm := 8
    lthr := 169
    planStartMonday := (12 - 12 % 7 - 7 * 17) * 1440
    zones := {
      easy := { min := 72/100, max := 80/100 }
      steady := { min := 77/100, max := 84/100 }
      tempo := { min := 88/100, max := 94/100 }
      hard := { min := 95/100, max := 1 } } }

/-- A 13-week variant of the example configuration, whose taper week
(week 12) is also a recovery week. -/
def exampleCtx13 : PlanContext :=
  { exampleCtx with totalWeeks := 13 }

/-- Claim C6, witness: the four cases at weeks 1 (generic), 4
(recovery), 17 (taper) and 16 (race test) of the 18-week example. -/
theorem c6_long_run_distance_witness :
    ((¬ (0 + 1) % 4 = 0 ∧
      ¬ ((0 + 1 : ℕ) : ℤ) = (exampleCtx.totalWeeks : ℤ) - 1 ∧
      ¬ (((0 + 1 : ℕ) : ℤ) = (exampleCtx.totalWeeks : ℤ) - 2 ∨
        ((0 + 1 : ℕ) : ℤ) = (exampleCtx.totalWeeks : ℤ) - 3)) ∧
      longRunKm exampleCtx 0 = min
        (⌊(exampleCtx.startKm : ℚ) +
          ((exampleCtx.raceDist : ℚ) - (exampleCtx.startKm : ℚ)) /
          ((max ((exampleCtx.totalWeeks : ℤ) - 4) 1 : ℤ) : ℚ) * (0 : ℚ)⌋)
        (exampleCtx.raceDist : ℤ) ∧
      longRunTag exampleCtx 0 = "") ∧
    ((3 + 1) % 4 = 0 ∧ longRunKm exampleCtx 3 = (exampleCtx.startKm : ℤ) ∧
      longRunTag exampleCtx 3 = " [RECOVERY]") ∧
    (((16 + 1 : ℕ) : ℤ) = (exampleCtx.totalWeeks : ℤ) - 1 ∧
      longRunKm exampleCtx 16 = ⌊(exampleCtx.raceDist : ℚ) * (1/2 : ℚ)⌋ ∧
      longRunTag exampleCtx 16 = " [TAPER]") ∧
    ((((15 + 1 : ℕ) : ℤ) = (exampleCtx.totalWeeks : ℤ) - 2 ∨
      ((15 + 1 : ℕ) : ℤ) = (exampleCtx.totalWeeks : ℤ) - 3) ∧
      longRunKm exampleCtx 15 = (exampleCtx.raceDist : ℤ) ∧
      longRunTag exampleCtx 15 = " [RACE TEST]") :=
  ⟨⟨⟨by decide, by decide, by decide⟩,
    (c6_long_run_distance exampleCtx 0).2.1 (by decide) (by decide)
      (by decide)⟩,
   ⟨by decide, (c6_long_run_distance exampleCtx 3).2.2.1 (by decide)
      (by decide) (by decide)⟩,
   ⟨by decide, (c6_long_run_distance exampleCtx 16).2.2.2.1 (by decide)
      (by decide)⟩,
   ⟨by decide, (c6_long_run_distance exampleCtx 15).2.2.2.2 (by decide)⟩⟩

/-- Claim C9: when special-week conditions overlap, the overrides of
`generateLongRun` apply in the fixed order recovery, taper, race-test,
a later one winning: a week that is both a recovery week and a race-test
week gets the race distance and "[RACE TEST]", and a week that is both a
recovery week and the taper week gets half the race distance and
"[TAPER]". -/
theorem c9_override_precedence (ctx : PlanContext) (weekIdx : ℕ) :
    ((weekIdx + 1) % 4 = 0 →
      ((weekIdx + 1 : ℕ) : ℤ) = (ctx.totalWeeks : ℤ) - 2 ∨
        ((weekIdx + 1 : ℕ) : ℤ) = (ctx.totalWeeks : ℤ) - 3 →
      longRunKm ctx weekIdx = (ctx.raceDist : ℤ) ∧
      longRunTag ctx weekIdx = " [RACE TEST]") ∧
    ((weekIdx + 1) % 4 = 0 →
      ((weekIdx + 1 : ℕ) : ℤ) = (ctx.totalWeeks : ℤ) - 1 →
      longRunKm ctx weekIdx = ⌊(ctx.raceDist : ℚ) * (1/2 : ℚ)⌋ ∧
      longRunTag ctx weekIdx = " [TAPER]") := by
  constructor
  · intro _ h3
    constructor
    · simp only [longRunKm]
      rw [if_pos h3]
    · simp only [longRunTag]
      rw [if_pos h3]
  · intro _ h2
    have h3 : ¬ (((weekIdx + 1 : ℕ) : ℤ) = (ctx.totalWeeks : ℤ) - 2 ∨
        ((weekIdx + 1 : ℕ) : ℤ) = (ctx.totalWeeks : ℤ) - 3) := by omega
    constructor
    · simp only [longRunKm]
      rw [if_neg h3, if_pos h2]
    · simp only [longRunTag]
      rw [if_neg h3, if_pos h2]

/-- Claim C9, witness: week 16 of the 18-week example (recovery and
race-test overlap) and week 12 of the 13-week example (recovery and
taper overlap). -/
theorem c9_override_precedence_witness :
    (((15 + 1) % 4 = 0 ∧
      (((15 + 1 : ℕ) : ℤ) = (exampleCtx.totalWeeks : ℤ) - 2 ∨
        ((15 + 1 : ℕ) : ℤ) = (exampleCtx.totalWeeks : ℤ) - 3)) ∧
      longRunKm exampleCtx 15 = (exampleCtx.raceDist : ℤ) ∧
      longRunTag exampleCtx 15 = " [RACE TEST]") ∧
    (((11 + 1) % 4 = 0 ∧
      ((11 + 1 : ℕ) : ℤ) = (exampleCtx13.totalWeeks : ℤ) - 1) ∧
      longRunKm exampleCtx13 11 = ⌊(exampleCtx13.raceDist : ℚ) * (1/2 : ℚ)⌋ ∧
      longRunTag exampleCtx13 11 = " [TAPER]") :=
  ⟨⟨⟨by decide, by decide⟩,
    (c9_override_precedence exampleCtx 15).1 (by decide) (by decide)⟩,
   ⟨⟨by decide, by decide⟩,
    (c9_override_precedence exampleCtx13 11).2 (by decide) (by decide)⟩⟩

/-! ### Claim C2 — what the descriptions embed about fuel -/

/-- The fuel token that every strategy line carries: `FUEL: <n>g/10m`,
a per-10-minute rate. -/
def fuelToken (f : ℕ) : String := "FUEL: " ++ Nat.repr f ++ "g/10m"

theorem stratHard_eq (f : ℕ) : stratHard f = "PUMP OFF - " ++ fuelToken f := by
  have hsplit : ("PUMP OFF - FUEL: " : String).data =
    ("PUMP OFF - " : String).data ++ ("FUEL: " : String).data := rfl
  apply String.ext
  simp [stratHard, fuelToken, String.data_append, hsplit, List.append_assoc]

theorem stratLong_eq (f : ℕ) : stratLong f = "PUMP OFF - " ++ fuelToken f := by
  have hsplit : ("PUMP OFF - FUEL: " : String).data =
    ("PUMP OFF - " : String).data ++ ("FUEL: " : String).data := rfl
  apply String.ext
  simp [stratLong, fuelToken, String.data_append, hsplit, List.append_assoc]

theorem stratEasy_eq (f : ℕ) :
    stratEasy f = "PUMP ON (-50%) - " ++ fuelToken f := by
  have hsplit : ("PUMP ON (-50%) - FUEL: " : String).data =
    ("PUMP ON (-50%) - " : String).data ++ ("FUEL: " : String).data := rfl
  apply String.ext
  simp [stratEasy, fuelToken, String.data_append, hsplit, List.append_assoc]

theorem occursIn_token (tok pre rest : String) :
    occursIn tok.data ((pre ++ tok) ++ rest).data := by
  refine ⟨pre.data, rest.data, ?_⟩
  simp [String.data_append]

/-- The description of every generated workout starts with its title
line. -/
theorem createWorkoutText_head (t w : String) (steps : List String)
    (c : String) (r : ℤ) :
    ∃ rest, createWorkoutText t w steps c r = t ++ rest :=
  ⟨"\n" ++ joinNl (["", "Warmup", "- " ++ w, "",
      if r > 1 then "Main set " ++ toString r ++ "x" else "Main set"]
      ++ steps.map (fun s => "- " ++ s)
      ++ ["", "Cooldown", "- " ++ c, ""]),
    by rw [← strAppend_assoc]; rfl⟩

theorem quality_desc_token {ctx : PlanContext} {i : ℕ} {ws : ℤ}
    {e : WorkoutEvent} (h : generateQualityRun ctx i ws = some e) :
    occursIn (fuelToken ctx.fuelInterval).data e.description.data := by
  simp only [generateQualityRun] at h
  split_ifs at h
  all_goals first
    | exact Option.noConfusion h
    | (obtain rfl := (Option.some.inj h).symm
       obtain ⟨rest, hr⟩ := createWorkoutText_head
         (stratHard ctx.fuelInterval) _ _ _ _
       show occursIn _ (createWorkoutText _ _ _ _ _).data
       rw [hr, stratHard_eq, strAppend_assoc]
       exact occursIn_token _ "PUMP OFF - " rest)

theorem easy_desc_token {ctx : PlanContext} {i : ℕ} {ws : ℤ}
    {e : WorkoutEvent} (h : generateEasyRun ctx i ws = some e) :
    occursIn (fuelToken ctx.fuelSteady).data e.description.data := by
  simp only [generateEasyRun] at h
  split_ifs at h
  all_goals first
    | exact Option.noConfusion h
    | (obtain rfl := (Option.some.inj h).symm
       obtain ⟨rest, hr⟩ := createWorkoutText_head
         (stratEasy ctx.fuelSteady) _ _ _ _
       show occursIn _ (createWorkoutText _ _ _ _ _).data
       rw [hr, stratEasy_eq, strAppend_assoc]
       exact occursIn_token _ "PUMP ON (-50%) - " rest)

theorem bonus_desc_token {ctx : PlanContext} {i : ℕ} {ws : ℤ}
    {e : WorkoutEvent} (h : generateBonusRun ctx i ws = some e) :
    occursIn (fuelToken ctx.fuelSteady).data e.description.data := by
  simp only [generateBonusRun] at h
  split_ifs at h
  all_goals first
    | exact Option.noConfusion h
    | (obtain rfl := (Option.some.inj h).symm
       obtain ⟨rest, hr⟩ := createWorkoutText_head
         (stratEasy ctx.fuelSteady) _ _ _ _
       show occursIn _ (createWorkoutText _ _ _ _ _).data
       rw [hr, stratEasy_eq, strAppend_assoc]
       exact occursIn_token _ "PUMP ON (-50%) - " rest)

theorem long_desc_token {ctx : PlanContext} {i : ℕ} {ws : ℤ}
    {e : WorkoutEvent} (h : generateLongRun ctx i ws = some e) :
    occursIn (fuelToken ctx.fuelSteady).data e.description.data := by
  simp only [generateLongRun] at h
  split_ifs at h
  all_goals first
    | exact Option.noConfusion h
    | (obtain rfl := (Option.some.inj h).symm
       show occursIn _ (raceDayEvent ctx.fuelSteady ctx.raceDate
         ctx.raceDist ctx.pfx).description.data
       show occursIn _ ((("RACE DAY! " ++ Nat.repr ctx.raceDist ++ "km. ") ++
         stratLong ctx.fuelSteady) ++ "\n\nGood luck!").data
       rw [stratLong_eq, ← strAppend_assoc]
       exact occursIn_token _ _ _)
    | (obtain rfl := (Option.some.inj h).symm
       obtain ⟨rest, hr⟩ := createWorkoutText_head
         (stratLong ctx.fuelSteady ++ " (Trail)") _ _ _ _
       show occursIn _ (createWorkoutText _ _ _ _ _).data
       rw [hr, stratLong_eq, strAppend_assoc, strAppend_assoc]
       exact occursIn_token _ "PUMP OFF - " (" (Trail)" ++ rest))

/-- Membership in one week's emitted slot list comes from one of the
four generators succeeding. -/
theorem mem_week_slot {ctx : PlanContext} {i : ℕ} {ws today : ℤ}
    {e : WorkoutEvent}
    (he : e ∈ (if isBefore (addDays ws 7) today then [] else
      [generateQualityRun ctx i ws, generateEasyRun ctx i ws,
       generateBonusRun ctx i ws, generateLongRun ctx i ws].filterMap id)) :
    generateQualityRun ctx i ws = some e ∨
    generateEasyRun ctx i ws = some e ∨
    generateBonusRun ctx i ws = some e ∨
    generateLongRun ctx i ws = some e := by
  split_ifs at he with h
  · exact absurd he (List.not_mem_nil e)
  · rw [List.mem_filterMap] at he
    obtain ⟨o, ho, hoe⟩ := he
    simp only [List.mem_cons, List.not_mem_nil, or_false] at ho
    rcases ho with rfl | rfl | rfl | rfl
    · exact Or.inl hoe
    · exact Or.inr (Or.inl hoe)
    · exact Or.inr (Or.inr (Or.inl hoe))
    · exact Or.inr (Or.inr (Or.inr hoe))

set_option maxHeartbeats 1600000 in
/-- Claim C2 (amended): no generated description embeds a computed
total-carbohydrate figure; what every description does embed is the
per-10-minute fuel rate token `FUEL: <n>g/10m` — the interval rate on
the Tuesday quality run, the steady rate on the easy, bonus, long and
race-day entries. -/
theorem c2_fuel_rate_token (fI fS : ℕ) (raceDay : ℤ) (raceDist : ℕ)
    (pfx : String) (totalWeeks startKm lthr : ℕ) (today : ℤ) :
    (generatePlan fI fS raceDay raceDist pfx totalWeeks startKm lthr
      today).Forall (fun e =>
        occursIn (fuelToken fI).data e.description.data ∨
        occursIn (fuelToken fS).data e.description.data) := by
  rw [List.forall_iff_forall_mem]
  intro e he
  simp only [generatePlan] at he
  rw [List.mem_flatMap] at he
  obtain ⟨i, _, he⟩ := he
  rcases mem_week_slot he with h | h | h | h
  · exact Or.inl (quality_desc_token h)
  · exact Or.inr (easy_desc_token h)
  · exact Or.inr (bonus_desc_token h)
  · exact Or.inr (long_desc_token h)

set_option maxRecDepth 8192 in
set_option maxHeartbeats 1000000 in
/-- Claim C2, counterexample: in the one-week configuration (interval
fuel 5, steady fuel 10, race on day 5, LTHR 169) the second generated
event is the race-week Thursday easy run: duration-based with a
20-minute main phase, so the claim's estimated total duration is
10 + 20 + 5 = 35 minutes and the claimed embedded total-carbohydrate
figure is round((35 / 10) · 10) = 35.  The full description is computed
below; the numeral "35" does not occur in it anywhere — no
total-carbohydrate figure is embedded, only the per-10-minute rate token
`FUEL: 10g/10m`. -/
theorem c2_no_total_carbs_counterexample :
    (generatePlan 5 10 5 16 "eco16" 1 8 169 0).get? 1 =
      some
        { start_date_local := 5040
          name := "W01 Thu Easy eco16 [SHAKEOUT]"
          description := "PUMP ON (-50%) - FUEL: 10g/10m\n\nWarmup\n- PUMP ON (-50%) - FUEL: 10g/10m 10m 72-80% LTHR (121-136 bpm)\n\nMain set\n- 20m 72-80% LTHR (121-136 bpm)\n\nCooldown\n- 5m 72-80% LTHR (121-136 bpm)\n"
          external_id := "eco16-thu-1"
          type := "Run" } ∧
    hasSub "35".data "PUMP ON (-50%) - FUEL: 10g/10m\n\nWarmup\n- PUMP ON (-50%) - FUEL: 10g/10m 10m 72-80% LTHR (121-136 bpm)\n\nMain set\n- 20m 72-80% LTHR (121-136 bpm)\n\nCooldown\n- 5m 72-80% LTHR (121-136 bpm)\n".data = false ∧
    hasSub "FUEL: 10g/10m".data "PUMP ON (-50%) - FUEL: 10g/10m\n\nWarmup\n- PUMP ON (-50%) - FUEL: 10g/10m 10m 72-80% LTHR (121-136 bpm)\n\nMain set\n- 20m 72-80% LTHR (121-136 bpm)\n\nCooldown\n- 5m 72-80% LTHR (121-136 bpm)\n".data = true := by
  refine ⟨?_, by decide, by decide⟩
  have hspine : (generatePlan 5 10 5 16 "eco16" 1 8 169 0).get? 1 =
      generateEasyRun
        { fuelInterval := 5, fuelSteady := 10, raceDate := 5 * 1440,
          raceDist := 16, pfx := "eco16", totalWeeks := 1, startKm := 8,
          lthr := 169,
          planStartMonday := addWeeks (startOfWeek (5 * 1440)) (-(1 - 1 : ℤ)),
          zones := {
            easy := { min := 72/100, max := 80/100 }
            steady := { min := 77/100, max := 84/100 }
            tempo := { min := 88/100, max := 94/100 }
            hard := { min := 95/100, max := 1 } } } 0
        (addWeeks (addWeeks (startOfWeek (5 * 1440)) (-(1 - 1 : ℤ))) 0) := rfl
  rw [hspine]
  have h1 : (⌊(72/100 : ℚ) * 100⌋ : ℤ) = 72 := by norm_num
  have h2 : (⌈(80/100 : ℚ) * 100⌉ : ℤ) = 80 := by norm_num
  have h3 : (⌊((169 : ℕ) : ℚ) * (72/100)⌋ : ℤ) = 121 := by norm_num
  have h4 : (⌈((169 : ℕ) : ℚ) * (80/100)⌉ : ℤ) = 136 := by
    rw [Int.ceil_eq_iff] <;> norm_num
  simp only [generateEasyRun, formatStep, padWeek, stratEasy,
    createWorkoutText]
  rw [h1, h2, h3, h4]
  norm_num [isBefore, isSameDay, addDays, addWeeks, dayOf, startOfWeek,
    setHours]
  decide

/-! ### External-id structure of the generators (claims C8 and C1)

Every non-race id has the shape `prefix ++ tag ++ weekNumber` with a
five-character tag drawn from `-tue-`, `-thu-`, `-sat-`, `-sun-`; the
race id is `prefix ++ "-race"`.  The lemmas below pin down when two such
ids can coincide. -/

theorem natRepr_data_ne_nil (n : ℕ) : (Nat.repr n).data ≠ [] := by
  have h : Nat.repr n = (digitsAux n).asString := by
    show (Nat.toDigitsCore 10 (n + 1) n []).asString = _
    rw [toDigitsCore_eq_digitsAux (n + 1) n [] (by omega)]
    simp
  rw [h]
  exact digitsAux_ne_nil n

theorem tag_ne (pfx : String) {a b : String} (hne : a ≠ b) :
    pfx ++ a ≠ pfx ++ b := fun hc => hne (strAppend_cancel_left hc)

theorem append_repr_ne {t1 t2 : String}
    (hlen : t1.data.length = t2.data.length) (hne : t1 ≠ t2) (m n : ℕ) :
    t1 ++ Nat.repr m ≠ t2 ++ Nat.repr n := by
  intro hc
  have hd := congrArg String.data hc
  simp only [String.data_append] at hd
  rcases List.append_inj hd hlen with ⟨h1, -⟩
  exact hne (String.ext h1)

theorem append_repr_week_inj {p1 p2 : String} {m n : ℕ}
    (hlen : p1.data.length = p2.data.length)
    (hc : p1 ++ Nat.repr m = p2 ++ Nat.repr n) : m = n := by
  have hd := congrArg String.data hc
  simp only [String.data_append] at hd
  rcases List.append_inj hd hlen with ⟨-, h2⟩
  exact natRepr_inj (String.ext h2)

theorem append_repr_ne_race {t : String} (hlen : t.data.length = 5)
    (m : ℕ) : t ++ Nat.repr m ≠ "-race" := by
  intro hc
  have hd := congrArg String.data hc
  simp only [String.data_append] at hd
  have h5 : ("-race" : String).data.length = 5 := by decide
  have hlen2 := congrArg List.length hd
  simp only [List.length_append, hlen, h5] at hlen2
  exact natRepr_data_ne_nil m (List.eq_nil_of_length_eq_zero (by omega))

theorem slot_tag_ne (pfx : String) {t1 t2 : String}
    (h1 : t1.data.length = 5) (h2 : t2.data.length = 5) (hne : t1 ≠ t2)
    (m n : ℕ) : pfx ++ t1 ++ Nat.repr m ≠ pfx ++ t2 ++ Nat.repr n :=
  append_repr_ne
    (by simp only [String.data_append, List.length_append, h1, h2])
    (tag_ne pfx hne) m n

theorem slot_tag_ne_race (pfx : String) {t : String}
    (h1 : t.data.length = 5) (m : ℕ) :
    pfx ++ t ++ Nat.repr m ≠ pfx ++ "-race" := by
  intro hc
  rw [strAppend_assoc] at hc
  exact append_repr_ne_race h1 m (strAppend_cancel_left hc)

theorem generateQualityRun_id {ctx : PlanContext} {i : ℕ} {ws : ℤ}
    {e : WorkoutEvent} (h : generateQualityRun ctx i ws = some e) :
    e.external_id = ctx.pfx ++ "-tue-" ++ Nat.repr (i + 1) := by
  simp only [generateQualityRun] at h
  split_ifs at h
  all_goals first
    | exact Option.noConfusion h
    | (cases h; rfl)

theorem generateEasyRun_id {ctx : PlanContext} {i : ℕ} {ws : ℤ}
    {e : WorkoutEvent} (h : generateEasyRun ctx i ws = some e) :
    e.external_id = ctx.pfx ++ "-thu-" ++ Nat.repr (i + 1) := by
  simp only [generateEasyRun] at h
  split_ifs at h
  all_goals first
    | exact Option.noConfusion h
    | (cases h; rfl)

theorem generateBonusRun_id {ctx : PlanContext} {i : ℕ} {ws : ℤ}
    {e : WorkoutEvent} (h : generateBonusRun ctx i ws = some e) :
    e.external_id = ctx.pfx ++ "-sat-" ++ Nat.repr (i + 1) := by
  simp only [generateBonusRun] at h
  split_ifs at h
  all_goals first
    | exact Option.noConfusion h
    | (cases h; rfl)

theorem generateLongRun_id {ctx : PlanContext} {i : ℕ} {ws : ℤ}
    {e : WorkoutEvent} (h : generateLongRun ctx i ws = some e) :
    e.external_id = if i + 1 = ctx.totalWeeks then ctx.pfx ++ "-race"
      else ctx.pfx ++ "-sun-" ++ Nat.repr (i + 1) := by
  simp only [generateLongRun] at h
  split_ifs at h ⊢
  all_goals first
    | exact Option.noConfusion h
    | (cases h; rfl)

theorem filterMap_id_four {α : Type} (o1 o2 o3 o4 : Option α) :
    [o1, o2, o3, o4].filterMap id =
      o1.toList ++ (o2.toList ++ (o3.toList ++ o4.toList)) := by
  cases o1 <;> cases o2 <;> cases o3 <;> cases o4 <;> rfl

theorem opt_map_sublist {o : Option WorkoutEvent} {x : String}
    (h : ∀ e, o = some e → e.external_id = x) :
    (o.toList.map (fun e => e.external_id)).Sublist [x] := by
  cases o with
  | none => exact List.nil_sublist _
  | some e =>
    have hx : ((some e).toList.map (fun e => e.external_id)) = [x] := by
      simp [h e rfl]
    rw [hx]

theorem flatMap_sublist {α β : Type} {f g : α → List β}
    (h : ∀ a, (f a).Sublist (g a)) (l : List α) :
    (l.flatMap f).Sublist (l.flatMap g) := by
  induction l with
  | nil => exact List.Sublist.refl _
  | cons a l ih =>
    simp only [List.flatMap_cons]
    exact List.Sublist.append (h a) ih

/-- The ids of the events a week contributes form a sublist of that
week's four candidate ids. -/
theorem weekEvents_ids_sublist (ctx : PlanContext) (today : ℤ) (i : ℕ) :
    ((weekEvents ctx today i).map (fun e => e.external_id)).Sublist
      (slotIds ctx.pfx ctx.totalWeeks i) := by
  simp only [weekEvents]
  split_ifs
  · exact List.nil_sublist _
  · rw [filterMap_id_four, List.map_append, List.map_append,
      List.map_append]
    have h4 : slotIds ctx.pfx ctx.totalWeeks i =
        [ctx.pfx ++ "-tue-" ++ Nat.repr (i + 1)] ++
        ([ctx.pfx ++ "-thu-" ++ Nat.repr (i + 1)] ++
        ([ctx.pfx ++ "-sat-" ++ Nat.repr (i + 1)] ++
        [if i + 1 = ctx.totalWeeks then ctx.pfx ++ "-race"
         else ctx.pfx ++ "-sun-" ++ Nat.repr (i + 1)])) := rfl
    rw [h4]
    refine List.Sublist.append ?_ (List.Sublist.append ?_
      (List.Sublist.append ?_ ?_))
    · exact opt_map_sublist (fun e he => generateQualityRun_id he)
    · exact opt_map_sublist (fun e he => generateEasyRun_id he)
    · exact opt_map_sublist (fun e he => generateBonusRun_id he)
    · exact opt_map_sublist (fun e he => generateLongRun_id he)

/-- Every candidate id is either a five-character-tag slot id of its
week or, on the final week only, the race id. -/
theorem slotIds_mem_form {pfx : String} {T i : ℕ} {a : String}
    (h : a ∈ slotIds pfx T i) :
    (∃ t : String, t.data.length = 5 ∧ a = pfx ++ t ++ Nat.repr (i + 1)) ∨
      (i + 1 = T ∧ a = pfx ++ "-race") := by
  simp only [slotIds, List.mem_cons, List.not_mem_nil, or_false] at h
  rcases h with rfl | rfl | rfl | h
  · exact Or.inl ⟨"-tue-", by decide, rfl⟩
  · exact Or.inl ⟨"-thu-", by decide, rfl⟩
  · exact Or.inl ⟨"-sat-", by decide, rfl⟩
  · split_ifs at h with hT
    · exact Or.inr ⟨hT, h⟩
    · exact Or.inl ⟨"-sun-", by decide, h⟩

theorem slotIds_nodup (pfx : String) (T i : ℕ) : (slotIds pfx T i).Nodup := by
  have h5tue : ("-tue-" : String).data.length = 5 := by decide
  have h5thu : ("-thu-" : String).data.length = 5 := by decide
  have h5sat : ("-sat-" : String).data.length = 5 := by decide
  have h5sun : ("-sun-" : String).data.length = 5 := by decide
  have hlast : ∀ m : ℕ, ∀ t : String, t.data.length = 5 → t ≠ "-sun-" →
      pfx ++ t ++ Nat.repr m ≠
        (if i + 1 = T then pfx ++ "-race"
         else pfx ++ "-sun-" ++ Nat.repr (i + 1)) := by
    intro m t h5 hne
    split_ifs with hT
    · exact slot_tag_ne_race pfx h5 m
    · exact slot_tag_ne pfx h5 h5sun hne m (i + 1)
  show List.Pairwise (fun a b => a ≠ b) (slotIds pfx T i)
  simp only [slotIds]
  refine List.Pairwise.cons ?_ (List.Pairwise.cons ?_
    (List.Pairwise.cons ?_ (List.pairwise_singleton _ _)))
  · intro x hx
    rcases List.mem_cons.mp hx with rfl | hx
    · exact slot_tag_ne pfx h5tue h5thu (by decide) _ _
    rcases List.mem_cons.mp hx with rfl | hx
    · exact slot_tag_ne pfx h5tue h5sat (by decide) _ _
    rcases List.mem_cons.mp hx with rfl | hx
    · exact hlast _ _ h5tue (by decide)
    · exact absurd hx (List.not_mem_nil _)
  · intro x hx
    rcases List.mem_cons.mp hx with rfl | hx
    · exact slot_tag_ne pfx h5thu h5sat (by decide) _ _
    rcases List.mem_cons.mp hx with rfl | hx
    · exact hlast _ _ h5thu (by decide)
    · exact absurd hx (List.not_mem_nil _)
  · intro x hx
    rcases List.mem_cons.mp hx with rfl | hx
    · exact hlast _ _ h5sat (by decide)
    · exact absurd hx (List.not_mem_nil _)

theorem slotIds_disjoint (pfx : String) (T : ℕ) {i j : ℕ} (hij : i ≠ j) :
    List.Disjoint (slotIds pfx T i) (slotIds pfx T j) := by
  intro a hai haj
  rcases slotIds_mem_form hai with ⟨t, ht5, rfl⟩ | ⟨hiT, rfl⟩
  · rcases slotIds_mem_form haj with ⟨u, hu5, heq⟩ | ⟨hjT, heq⟩
    · have : i + 1 = j + 1 := append_repr_week_inj
        (by simp only [String.data_append, List.length_append, ht5, hu5])
        heq
      exact hij (by omega)
    · exact slot_tag_ne_race pfx ht5 _ heq
  · rcases slotIds_mem_form haj with ⟨u, hu5, heq⟩ | ⟨hjT, heq⟩
    · exact slot_tag_ne_race pfx hu5 _ heq.symm
    · exact hij (by omega)

theorem slotIds_flat_nodup (pfx : String) (T : ℕ) :
    ((List.range T).flatMap (slotIds pfx T)).Nodup := by
  rw [List.flatMap_def, List.nodup_flatten]
  constructor
  · intro l hl
    rcases List.mem_map.mp hl with ⟨i, -, rfl⟩
    exact slotIds_nodup pfx T i
  · rw [List.pairwise_map]
    exact List.Pairwise.imp
      (fun hij => slotIds_disjoint pfx T (Nat.ne_of_lt hij))
      (List.pairwise_lt_range T)

/-- `generatePlan` is the week loop over `weekEvents` at `planCtx`. -/
theorem generatePlan_eq (fuelInterval fuelSteady : ℕ) (raceDay : ℤ)
    (raceDist : ℕ) (pfx : String) (totalWeeks startKm lthr : ℕ)
    (today : ℤ) :
    generatePlan fuelInterval fuelSteady raceDay raceDist pfx totalWeeks
        startKm lthr today =
      (List.range totalWeeks).flatMap
        (weekEvents (planCtx fuelInterval fuelSteady raceDay raceDist pfx
          totalWeeks startKm lthr) today) := rfl

/-- Claim C8: within a single `generatePlan` call every emitted event's
`external_id` is distinct from every other emitted event's external_id,
and two `generatePlan` calls with identical inputs (including the same
reference `today`) produce identical event lists. -/
theorem c8_external_id_unique (fuelInterval fuelSteady : ℕ)
    (raceDay : ℤ) (raceDist : ℕ) (pfx : String)
    (totalWeeks startKm lthr : ℕ) (today : ℤ) :
    List.Pairwise (fun e1 e2 => e1.external_id ≠ e2.external_id)
      (generatePlan fuelInterval fuelSteady raceDay raceDist pfx
        totalWeeks startKm lthr today) ∧
    generatePlan fuelInterval fuelSteady raceDay raceDist pfx totalWeeks
        startKm lthr today =
      generatePlan fuelInterval fuelSteady raceDay raceDist pfx totalWeeks
        startKm lthr today := by
  refine ⟨?_, rfl⟩
  have hnodup : ((generatePlan fuelInterval fuelSteady raceDay raceDist
      pfx totalWeeks startKm lthr today).map
        (fun e => e.external_id)).Nodup := by
    rw [generatePlan_eq, List.map_flatMap]
    refine List.Nodup.sublist ?_ (slotIds_flat_nodup pfx totalWeeks)
    exact flatMap_sublist
      (fun i => weekEvents_ids_sublist
        (planCtx fuelInterval fuelSteady raceDay raceDist pfx totalWeeks
          startKm lthr) today i)
      (List.range totalWeeks)
  exact List.pairwise_map.mp hnodup

/-! ### Race-date gating (claim C1) -/

theorem dayOf_setHours_lt {t d h : ℤ} (hb : isBefore t (d * 1440))
    (h0 : 0 ≤ h) (h24 : h < 24) : dayOf (setHours t h) < d := by
  simp only [isBefore, setHours, dayOf] at hb ⊢
  omega

theorem generateQualityRun_day {ctx : PlanContext} {i : ℕ} {ws : ℤ}
    {e : WorkoutEvent} (h : generateQualityRun ctx i ws = some e) :
    e.start_date_local = setHours (addDays ws 1) 12 ∧
      isBefore (addDays ws 1) ctx.raceDate := by
  simp only [generateQualityRun] at h
  by_cases h1 : ¬ isBefore (addDays ws 1) ctx.raceDate ∧
      ¬ isSameDay (addDays ws 1) ctx.raceDate
  · rw [if_pos h1] at h
    exact Option.noConfusion h
  by_cases h2 : isSameDay (addDays ws 1) ctx.raceDate
  · rw [if_neg h1, if_pos h2] at h
    exact Option.noConfusion h
  rw [if_neg h1, if_neg h2] at h
  have hb : isBefore (addDays ws 1) ctx.raceDate := by tauto
  refine ⟨?_, hb⟩
  split_ifs at h
  all_goals (cases h; rfl)

theorem generateEasyRun_day {ctx : PlanContext} {i : ℕ} {ws : ℤ}
    {e : WorkoutEvent} (h : generateEasyRun ctx i ws = some e) :
    e.start_date_local = setHours (addDays ws 3) 12 ∧
      isBefore (addDays ws 3) ctx.raceDate := by
  simp only [generateEasyRun] at h
  by_cases h1 : ¬ isBefore (addDays ws 3) ctx.raceDate ∧
      ¬ isSameDay (addDays ws 3) ctx.raceDate
  · rw [if_pos h1] at h
    exact Option.noConfusion h
  by_cases h2 : isSameDay (addDays ws 3) ctx.raceDate
  · rw [if_neg h1, if_pos h2] at h
    exact Option.noConfusion h
  rw [if_neg h1, if_neg h2] at h
  have hb : isBefore (addDays ws 3) ctx.raceDate := by tauto
  refine ⟨?_, hb⟩
  split_ifs at h
  all_goals (cases h; rfl)

theorem generateBonusRun_day {ctx : PlanContext} {i : ℕ} {ws : ℤ}
    {e : WorkoutEvent} (h : generateBonusRun ctx i ws = some e) :
    e.start_date_local = setHours (addDays ws 5) 12 ∧
      isBefore (addDays ws 5) ctx.raceDate := by
  simp only [generateBonusRun] at h
  by_cases h1 : ¬ isBefore (addDays ws 5) ctx.raceDate ∧
      ¬ isSameDay (addDays ws 5) ctx.raceDate
  · rw [if_pos h1] at h
    exact Option.noConfusion h
  by_cases h2 : isSameDay (addDays ws 5) ctx.raceDate
  · rw [if_neg h1, if_pos h2] at h
    exact Option.noConfusion h
  rw [if_neg h1, if_neg h2] at h
  have hb : isBefore (addDays ws 5) ctx.raceDate := by tauto
  cases h
  exact ⟨rfl, hb⟩

theorem generateLongRun_race {ctx : PlanContext} {i : ℕ} {ws : ℤ}
    (hr : i + 1 = ctx.totalWeeks) :
    generateLongRun ctx i ws =
      some (raceDayEvent ctx.fuelSteady ctx.raceDate ctx.raceDist
        ctx.pfx) := by
  simp only [generateLongRun]
  rw [if_pos hr]

theorem generateLongRun_day {ctx : PlanContext} {i : ℕ} {ws : ℤ}
    {e : WorkoutEvent} (h : generateLongRun ctx i ws = some e)
    (hnr : ¬ i + 1 = ctx.totalWeeks) :
    e.start_date_local = setHours (addDays ws 6) 10 ∧
      isBefore (addDays ws 6) ctx.raceDate := by
  simp only [generateLongRun] at h
  rw [if_neg hnr] at h
  by_cases hb : ¬ isBefore (addDays ws 6) ctx.raceDate
  · rw [if_pos hb] at h
    exact Option.noConfusion h
  · rw [if_neg hb] at h
    cases h
    exact ⟨rfl, not_not.mp hb⟩

theorem filter_race_toList {o : Option WorkoutEvent} {pfx : String}
    (h : ∀ e, o = some e → e.external_id ≠ pfx ++ "-race") :
    o.toList.filter (fun e => e.external_id == pfx ++ "-race") = [] := by
  cases o with
  | none => rfl
  | some e =>
    have hne := h e rfl
    simp [List.filter_cons, hne]

/-- A week other than the final one contributes no event with the race
id. -/
theorem weekEvents_filter_race {ctx : PlanContext} {today : ℤ} {i : ℕ}
    (hnr : i + 1 ≠ ctx.totalWeeks) :
    (weekEvents ctx today i).filter
      (fun e => e.external_id == ctx.pfx ++ "-race") = [] := by
  rw [List.filter_eq_nil_iff]
  intro e he
  have hid : e.external_id ∈ slotIds ctx.pfx ctx.totalWeeks i :=
    (weekEvents_ids_sublist ctx today i).subset
      (List.mem_map_of_mem _ he)
  simp only [beq_iff_eq]
  intro hc
  rcases slotIds_mem_form hid with ⟨t, h5, heq⟩ | ⟨hT, -⟩
  · exact slot_tag_ne_race ctx.pfx h5 _ (heq.symm.trans hc)
  · exact hnr hT

/-- The final, unskipped week contributes exactly the race-day event
under the race id. -/
theorem weekEvents_filter_race_week {ctx : PlanContext} {today : ℤ}
    {i : ℕ} (hr : i + 1 = ctx.totalWeeks)
    (hskip : ¬ isBefore (addDays (addWeeks ctx.planStartMonday i) 7)
      today) :
    (weekEvents ctx today i).filter
      (fun e => e.external_id == ctx.pfx ++ "-race") =
      [raceDayEvent ctx.fuelSteady ctx.raceDate ctx.raceDist ctx.pfx] := by
  simp only [weekEvents]
  rw [if_neg hskip, filterMap_id_four, generateLongRun_race hr]
  simp only [List.filter_append]
  rw [filter_race_toList (fun e he => by
        rw [generateQualityRun_id he]
        exact slot_tag_ne_race ctx.pfx (by decide) _),
      filter_race_toList (fun e he => by
        rw [generateEasyRun_id he]
        exact slot_tag_ne_race ctx.pfx (by decide) _),
      filter_race_toList (fun e he => by
        rw [generateBonusRun_id he]
        exact slot_tag_ne_race ctx.pfx (by decide) _)]
  simp [raceDayEvent]

/-- Claim C1: with at least one plan week and a reference `today`
strictly before the race date, `generatePlan` emits no event dated on or
after the race day except the race-day event: every emitted event whose
id is not `{prefix}-race` falls strictly before the race day, the events
carrying the race id are exactly one `raceDayEvent`, and that event is
dated on the race day with `RACE DAY` in its name. -/
theorem c1_race_date_gating (fuelInterval fuelSteady : ℕ) (raceDay : ℤ)
    (raceDist : ℕ) (pfx : String) (totalWeeks startKm lthr : ℕ)
    (today : ℤ) (hT : 1 ≤ totalWeeks) (htoday : today < raceDay * 1440) :
    (∀ e ∈ generatePlan fuelInterval fuelSteady raceDay raceDist pfx
        totalWeeks startKm lthr today,
      e.external_id ≠ pfx ++ "-race" →
        dayOf e.start_date_local < raceDay) ∧
    (generatePlan fuelInterval fuelSteady raceDay raceDist pfx totalWeeks
        startKm lthr today).filter
      (fun e => e.external_id == pfx ++ "-race") =
      [raceDayEvent fuelSteady (raceDay * 1440) raceDist pfx] ∧
    dayOf (raceDayEvent fuelSteady (raceDay * 1440) raceDist
      pfx).start_date_local = raceDay ∧
    occursIn "RACE DAY".data (raceDayEvent fuelSteady (raceDay * 1440)
      raceDist pfx).name.data := by
  refine ⟨?_, ?_, ?_, ?_⟩
  · intro e he hne
    rw [generatePlan_eq] at he
    rcases List.mem_flatMap.mp he with ⟨i, -, hei⟩
    simp only [weekEvents] at hei
    split_ifs at hei with hskip
    · exact absurd hei (List.not_mem_nil e)
    rw [filterMap_id_four] at hei
    simp only [List.mem_append, Option.mem_toList, Option.mem_def] at hei
    rcases hei with hq | hth | hs | hl
    · rcases generateQualityRun_day hq with ⟨hst, hb⟩
      rw [hst]
      exact dayOf_setHours_lt hb (by omega) (by omega)
    · rcases generateEasyRun_day hth with ⟨hst, hb⟩
      rw [hst]
      exact dayOf_setHours_lt hb (by omega) (by omega)
    · rcases generateBonusRun_day hs with ⟨hst, hb⟩
      rw [hst]
      exact dayOf_setHours_lt hb (by omega) (by omega)
    · by_cases hrw : i + 1 = totalWeeks
      · rw [generateLongRun_race hrw] at hl
        cases hl
        exact absurd rfl hne
      · rcases generateLongRun_day hl hrw with ⟨hst, hb⟩
        rw [hst]
        exact dayOf_setHours_lt hb (by omega) (by omega)
  · rw [generatePlan_eq, List.filter_flatMap]
    have hsplit : List.range totalWeeks =
        List.range (totalWeeks - 1) ++ [totalWeeks - 1] := by
      conv_lhs => rw [show totalWeeks = totalWeeks - 1 + 1 from by omega]
      exact List.range_succ _
    rw [hsplit, List.flatMap_append, List.flatMap_cons, List.flatMap_nil,
      List.append_nil]
    have h0 : (List.range (totalWeeks - 1)).flatMap
        (fun i => (weekEvents (planCtx fuelInterval fuelSteady raceDay
          raceDist pfx totalWeeks startKm lthr) today i).filter
            (fun e => e.external_id == pfx ++ "-race")) = [] := by
      rw [List.flatMap_eq_nil_iff]
      intro i hi
      exact @weekEvents_filter_race
        (planCtx fuelInterval fuelSteady raceDay raceDist pfx totalWeeks
          startKm lthr) today i
        (by
          have := List.mem_range.mp hi
          show i + 1 ≠ totalWeeks
          omega)
    rw [h0, List.nil_append]
    exact @weekEvents_filter_race_week
      (planCtx fuelInterval fuelSteady raceDay raceDist pfx totalWeeks
        startKm lthr) today (totalWeeks - 1)
      (by show totalWeeks - 1 + 1 = totalWeeks; omega)
      (by
        simp only [planCtx, addWeeks, addDays, startOfWeek, dayOf,
          isBefore]
        omega)
  · simp only [raceDayEvent, setHours, dayOf]
    omega
  · have h1 : ("RACE DAY " : String).data = "RACE DAY".data ++ [' '] := by
      decide
    have hdata : (("RACE DAY " ++ pfx) : String).data =
        [] ++ "RACE DAY".data ++ (' ' :: pfx.data) := by
      simp [String.data_append, h1, List.append_assoc]
    show occursIn "RACE DAY".data (("RACE DAY " ++ pfx) : String).data
    rw [hdata]
    exact occursIn_of_middle _ _ _

/-- Witness for C1 at a concrete configuration: a 1-week plan for a
16 km race on day 5, generated on day 0. -/
theorem c1_race_date_gating_witness :
    ((1 : ℕ) ≤ 1 ∧ (0 : ℤ) < 5 * 1440) ∧
    ((∀ e ∈ generatePlan 5 10 5 16 "eco16" 1 8 169 0,
        e.external_id ≠ "eco16" ++ "-race" →
          dayOf e.start_date_local < 5) ∧
      (generatePlan 5 10 5 16 "eco16" 1 8 169 0).filter
        (fun e => e.external_id == "eco16" ++ "-race") =
        [raceDayEvent 10 (5 * 1440) 16 "eco16"] ∧
      dayOf (raceDayEvent 10 (5 * 1440) 16 "eco16").start_date_local = 5 ∧
      occursIn "RACE DAY".data
        (raceDayEvent 10 (5 * 1440) 16 "eco16").name.data) :=
  ⟨⟨by decide, by decide⟩,
    c1_race_date_gating 5 10 5 16 "eco16" 1 8 169 0 (by decide)
      (by decide)⟩

end WorkoutPlanner
